import Mathlib

/-! # Event streaming handler (handlers/events_streamer.go)

A shallow embedding of `EventStreamHandler` and `listenForAdapterEvents`:
the reconciliation tick over the adapter registry, the listener that drains
one adapter's event stream, the relay that frames payloads for the HTTP
response, and the interleaving of these goroutines.
-/

namespace EventsStreamer

/-! ## Data model -/

/-- Identity of a `meshes.MeshClient` object: the n-th client allocated by
`meshes.CreateClient` during the life of the handler. -/
abbrev ClientId := Nat

/-- A `*meshes.MeshClient` value: `none` is the nil pointer. -/
abbrev MeshClient := Option ClientId

/-- The fields of `models.Adapter` read by the handler; the elements of
`MeshAdapters` are taken to be non-nil pointers. -/
structure Adapter where
  Location : String
deriving DecidableEq, Repr

/-- The fields of `models.K8SConfig` read by the handler; `Config` is a byte
slice, `none` being the nil slice. -/
structure K8SConfig where
  InClusterConfig : Bool
  Config : Option (List UInt8)
  ContextName : String
deriving DecidableEq, Repr

/-- The fields of `models.Preference` read by the handler; `K8SConfig` is a
pointer and `MeshAdapters` a slice, `none` being nil for both. -/
structure Preference where
  K8SConfig : Option K8SConfig
  MeshAdapters : Option (List Adapter)
deriving DecidableEq, Repr

/-- The map `localMeshAdapters`, as an association list read front to back. -/
abbrev Registry := List (String × MeshClient)

/-- Value returned by `localMeshAdapters[loc]` together with its `ok` flag. -/
def Registry.get (r : Registry) (loc : String) : Option MeshClient :=
  match r with
  | [] => none
  | (k, v) :: rest => if k = loc then some v else Registry.get rest loc

/-- Effect of `delete(localMeshAdapters, loc)`. -/
def Registry.delete (r : Registry) (loc : String) : Registry :=
  match r with
  | [] => []
  | (k, v) :: rest => if k = loc then Registry.delete rest loc else (k, v) :: Registry.delete rest loc

/-- Effect of `localMeshAdapters[loc] = v`. -/
def Registry.set (r : Registry) (loc : String) (v : MeshClient) : Registry :=
  match r with
  | [] => [(loc, v)]
  | (k, w) :: rest => if k = loc then (k, v) :: rest else (k, w) :: Registry.set rest loc v

/-- Keys of the map. -/
def Registry.keys (r : Registry) : List String := r.map Prod.fst

/-- Pair `(mClient, err)` returned by one call of `meshes.CreateClient`:
`client` tells whether the returned pointer is non-nil, `err` whether the
returned error is non-nil. -/
structure CreateResult where
  client : Bool
  err : Bool
deriving DecidableEq, Repr

/-- Answers of the collaborators during one pass over `meshAdapters`, indexed by
the position of the adapter in the slice: the result of `meshes.CreateClient`
and whether `MeshName` returned an error. -/
structure TickEnv where
  CreateClient : Nat → CreateResult
  MeshNameErr : Nat → Bool

/-- Operations performed by the reconciliation loop, in program order. -/
inductive Action where
  | lock
  | unlock
  | mapRead (loc : String)
  | mapInsert (loc : String) (c : MeshClient)
  | mapDelete (loc : String)
  | mapReset
  | createClient (loc : String) (c : MeshClient) (err : Bool)
  | meshName (loc : String) (c : ClientId) (err : Bool)
  | close (c : MeshClient)
  | announce (loc : String) (c : ClientId)
deriving DecidableEq, Repr

/-- Variables of the reconciliation loop that survive from one tick to the
next: the registry, and the number of clients allocated so far. -/
structure LoopState where
  localMeshAdapters : Registry
  allocated : Nat
deriving DecidableEq, Repr

/-- State threaded through the `for _, ma := range meshAdapters` loop. -/
structure IterState where
  localMeshAdapters : Registry
  allocated : Nat
  trace : List Action
deriving DecidableEq, Repr

/-! ## The reconciliation tick -/

/-- Condition of line 101: the cluster configuration is absent or unusable. -/
def noValidK8SConfig (prefObj : Preference) : Bool :=
  match prefObj.K8SConfig with
  | none => true
  | some k =>
    !k.InClusterConfig &&
      (match k.Config with
       | none => true
       | some bytes => bytes.length == 0)

/-- The drain of lines 105-110 and 117-122: lock, close every client of the
map, replace the map by an empty one, unlock. -/
def drainRegistry (st : LoopState) : LoopState × List Action :=
  ({ localMeshAdapters := [], allocated := st.allocated },
   [Action.lock] ++ st.localMeshAdapters.map (fun e => Action.close e.2)
     ++ [Action.mapReset, Action.unlock])

/-- Body of the loop of lines 125-144 for the adapter at position `i`. -/
def reconcileAdapter (env : TickEnv) (i : Nat) (ma : Adapter) (s : IterState) : IterState :=
  let loc := ma.Location
  -- mClient, ok := localMeshAdapters[ma.Location]
  let found := s.localMeshAdapters.get loc
  let ok := found.isSome
  let s1 : IterState := { s with trace := s.trace ++ [Action.mapRead loc] }
  -- if !ok { mClient, err = meshes.CreateClient(...); if err == nil { insert } }
  let res := env.CreateClient i
  let created : MeshClient := if res.client then some s.allocated else none
  let mClient : MeshClient :=
    match found with
    | some c => c
    | none => created
  let s2 : IterState :=
    if ok then s1
    else
      let s1a : IterState :=
        { s1 with
          allocated := if res.client then s1.allocated + 1 else s1.allocated
          trace := s1.trace ++ [Action.createClient loc created res.err] }
      if res.err then s1a
      else
        { s1a with
          localMeshAdapters := s1a.localMeshAdapters.set loc created
          trace := s1a.trace ++ [Action.mapInsert loc created] }
  -- if mClient != nil { probe; on error close and delete, else announce when !ok }
  match mClient with
  | none => s2
  | some c =>
    let s3 : IterState := { s2 with trace := s2.trace ++ [Action.meshName loc c (env.MeshNameErr i)] }
    if env.MeshNameErr i then
      { s3 with
        localMeshAdapters := s3.localMeshAdapters.delete loc
        trace := s3.trace ++ [Action.close (some c), Action.mapDelete loc] }
    else if ok then s3
    else { s3 with trace := s3.trace ++ [Action.announce loc c] }

/-- The loop `for _, ma := range meshAdapters`, the position of the first
remaining adapter being `i`. -/
def reconcileFrom (env : TickEnv) : Nat → List Adapter → IterState → IterState
  | _, [], s => s
  | i, ma :: rest, s => reconcileFrom env (i + 1) rest (reconcileAdapter env i ma s)

/-- The `default:` branch of the select of lines 96-147: one reconciliation
tick. Returns the state after the tick and the operations it performed. -/
def tick (prefObj : Preference) (env : TickEnv) (st : LoopState) : LoopState × List Action :=
  let meshAdapters : List Adapter := prefObj.MeshAdapters.getD []
  if noValidK8SConfig prefObj then drainRegistry st
  else if meshAdapters.length == 0 then drainRegistry st
  else
    let s := reconcileFrom env 0 meshAdapters
      { localMeshAdapters := st.localMeshAdapters, allocated := st.allocated,
        trace := [Action.lock] }
    ({ localMeshAdapters := s.localMeshAdapters, allocated := s.allocated },
     s.trace ++ [Action.unlock])

/-! ## The listener of one adapter -/

/-- A payload of `respChan`. -/
abbrev Bytes := List UInt8

/-- What one call of `streamClient.Recv()` returns: an event, `io.EOF`, or
another error. -/
inductive RecvResult (Ev : Type) where
  | event (e : Ev)
  | eof
  | error
deriving DecidableEq, Repr

/-- What the listener does with one result of `Recv` (lines 168-194): push the
encoding of the event on `respChan`, or return. -/
inductive ListenerMove where
  | push (data : Bytes)
  | finish
deriving DecidableEq, Repr

/-- One pass of the `for` loop of `listenForAdapterEvents`; `marshal` stands for
`json.Marshal`, `none` being a serialization error. -/
def onRecv {Ev : Type} (marshal : Ev → Option Bytes) : RecvResult Ev → ListenerMove
  | RecvResult.event e =>
    match marshal e with
    | some data => ListenerMove.push data
    | none => ListenerMove.finish
  | RecvResult.eof => ListenerMove.finish
  | RecvResult.error => ListenerMove.finish

/-- How one send `respChan <- data` (line 194) ends: the payload enters the
buffer, the goroutine stays blocked because the buffer holds 100 payloads and
none is taken, or the send panics because `respChan` has been closed. -/
inductive SendResult where
  | sent
  | blocked
  | closed
deriving DecidableEq, Repr

/-- Outcome of a run of `listenForAdapterEvents`: the payloads pushed on
`respChan`, oldest first, whether the function has returned, and whether it
has panicked. It has done neither while `Recv` is waiting for a result or a
send is blocked. -/
structure ListenResult where
  pushed : List Bytes
  returned : Bool
  panicked : Bool
deriving DecidableEq, Repr

/-- The `for` loop of lines 166-195 over the results that `Recv` yields; `send k`
tells how the k-th send of the listener on `respChan` ends, `k` being the
number of the next send. -/
def listenLoop {Ev : Type} (marshal : Ev → Option Bytes) (send : Nat → SendResult) :
    Nat → List (RecvResult Ev) → List Bytes → ListenResult
  | _, [], pushed => { pushed := pushed, returned := false, panicked := false }
  | k, r :: rest, pushed =>
    match onRecv marshal r with
    | ListenerMove.push data =>
      match send k with
      | SendResult.sent => listenLoop marshal send (k + 1) rest (pushed ++ [data])
      | SendResult.blocked => { pushed := pushed, returned := false, panicked := false }
      | SendResult.closed => { pushed := pushed, returned := false, panicked := true }
    | ListenerMove.finish => { pushed := pushed, returned := true, panicked := false }

/-- The function `listenForAdapterEvents`: `subscription` is the result of
`StreamEvents`, `none` when it returned an error, otherwise the results that
successive calls of `Recv` yield. -/
def listenForAdapterEvents {Ev : Type} (marshal : Ev → Option Bytes)
    (send : Nat → SendResult) (subscription : Option (List (RecvResult Ev))) : ListenResult :=
  match subscription with
  | none => { pushed := [], returned := true, panicked := false }
  | some stream => listenLoop marshal send 0 stream []

/-! ## The output relay -/

/-- Calls made on the HTTP response writer. -/
inductive TransportCall where
  | write (bytes : Bytes)
  | flush
deriving DecidableEq, Repr

/-- Bytes of a string of ASCII characters. -/
def asciiBytes (s : String) : Bytes :=
  s.toList.map (fun ch => UInt8.ofNat ch.toNat)

/-- Bytes produced by the format `"data: %s\n\n"` for one payload. -/
def frame (data : Bytes) : Bytes :=
  asciiBytes "data: " ++ data ++ asciiBytes "\n\n"

/-- Records passed to `Write`, oldest first. -/
def writes : List TransportCall → List Bytes
  | [] => []
  | TransportCall.write bytes :: rest => bytes :: writes rest
  | TransportCall.flush :: rest => writes rest

/-- The loop `for data := range respChan` of lines 76-83, the position of the
first remaining payload being `i`. `writeErr i` tells whether the write of the
i-th record returns an error; the loop assigns that result to `_`. -/
def relayFrom (flusher : Bool) (writeErr : Nat → Bool) :
    Nat → List Bytes → List TransportCall → List TransportCall
  | _, [], calls => calls
  | i, data :: rest, calls =>
    let _ := writeErr i
    let calls1 := calls ++ [TransportCall.write (frame data)]
    let calls2 := if flusher then calls1 ++ [TransportCall.flush] else calls1
    relayFrom flusher writeErr (i + 1) rest calls2

/-- The relay goroutine of lines 70-85 run on the payloads taken from
`respChan` until it is closed; `flusher` tells whether `flusher != nil`, which
holds whenever the goroutine runs, the handler returning at line 34 otherwise. -/
def relay (flusher : Bool) (writeErr : Nat → Bool) (payloads : List Bytes) : List TransportCall :=
  relayFrom flusher writeErr 0 payloads []

/-! ## The goroutines together -/

/-- Operations of the whole handler, in the order they happen. -/
inductive Op where
  | main (a : Action)
  | closeNewAdaptersChan
  | closeRespChan
  | sendResp (c : ClientId) (data : Bytes)
  | sendOnClosedRespChan (c : ClientId) (data : Bytes)
  | listenerClose (c : ClientId) (target : MeshClient)
deriving DecidableEq, Repr

/-- State of the handler: the variables of the reconciliation loop, whether
the `STOP` loop has been left, the two channels, the clients whose listener
goroutine (lines 62-65) is running, and the operations performed so far.
`panicked` is set by a send on a closed channel. `mClient` is the variable of
the `range newAdaptersChan` loop of line 60, holding the client received last;
`sharedLoopVar` tells whether the goroutines started by that loop all read this
one variable (the loop semantics of Go before 1.22) or each its own copy. -/
structure Pipeline where
  sharedLoopVar : Bool
  mClient : MeshClient
  loop : LoopState
  stopped : Bool
  newAdaptersChanClosed : Bool
  respChanClosed : Bool
  respChan : List Bytes
  listeners : List ClientId
  panicked : Bool
  log : List Op
deriving DecidableEq, Repr

/-- Scheduling choices: one pass of the `STOP` loop, `notify` telling whether
the disconnect signal is readable, or one move of the listener of client `c`. -/
inductive Step where
  | iterate (notify : Bool) (prefObj : Preference) (env : TickEnv)
  | listener (c : ClientId) (m : ListenerMove)

/-- Clients sent on `newAdaptersChan` by a sequence of loop operations. -/
def announced : List Action → List ClientId
  | [] => []
  | Action.announce _ c :: rest => c :: announced rest
  | _ :: rest => announced rest

/-- State when the `STOP` loop is entered (lines 50-56). -/
def Pipeline.init (sharedLoopVar : Bool) : Pipeline :=
  { sharedLoopVar := sharedLoopVar
    mClient := none
    loop := { localMeshAdapters := [], allocated := 0 }
    stopped := false
    newAdaptersChanClosed := false
    respChanClosed := false
    respChan := []
    listeners := []
    panicked := false
    log := [] }

/-- One pass of the `STOP` loop (lines 88-150). The spawner goroutine
(lines 59-68) receives each announced client at the send, the channel being
unbuffered, and starts its listener goroutine. -/
def iterate (notify : Bool) (prefObj : Preference) (env : TickEnv) (p : Pipeline) : Pipeline :=
  if notify then
    { p with
      stopped := true
      newAdaptersChanClosed := true
      respChanClosed := true
      log := p.log ++ [Op.closeNewAdaptersChan, Op.closeRespChan] }
  else
    let r := tick prefObj env p.loop
    { p with
      mClient :=
        match (announced r.2).getLast? with
        | some c => some c
        | none => p.mClient
      loop := r.1
      listeners := p.listeners ++ announced r.2
      log := p.log ++ r.2.map Op.main }

/-- One move of the listener goroutine started for client `c` (lines 62-65): a
send on `respChan`, which panics when the channel is closed, or the return of
`listenForAdapterEvents` followed by `mClient.Close()`, which reads the loop
variable of line 60. A send that waits for room in the buffer of 100 payloads
is not a move. -/
def listenerMove (c : ClientId) (m : ListenerMove) (p : Pipeline) : Pipeline :=
  match m with
  | ListenerMove.push data =>
    if p.respChanClosed then
      { p with panicked := true, log := p.log ++ [Op.sendOnClosedRespChan c data] }
    else
      { p with respChan := p.respChan ++ [data], log := p.log ++ [Op.sendResp c data] }
  | ListenerMove.finish =>
    let target : MeshClient := if p.sharedLoopVar then p.mClient else some c
    { p with listeners := p.listeners.erase c, log := p.log ++ [Op.listenerClose c target] }

/-- Effect of one scheduling choice. A choice that cannot happen leaves the
state as it is: nothing runs after a panic, the `STOP` loop makes no pass once
left, and only a running listener moves. -/
def exec (p : Pipeline) : Step → Pipeline
  | Step.iterate notify prefObj env =>
    if p.panicked || p.stopped then p else iterate notify prefObj env p
  | Step.listener c m =>
    if p.panicked || !(p.listeners.contains c) then p else listenerMove c m p

/-- Execution of a sequence of scheduling choices. -/
def run (p : Pipeline) (steps : List Step) : Pipeline :=
  steps.foldl exec p

/-! ## Notions used in the statements -/

/-- Adapters read by a tick: `prefObj.MeshAdapters`, a nil slice being empty. -/
def configuredAdapters (prefObj : Preference) : List Adapter :=
  prefObj.MeshAdapters.getD []

/-- Locations of the adapters read by a tick. -/
def configuredLocations (prefObj : Preference) : List String :=
  (configuredAdapters prefObj).map Adapter.Location

/-- The registry holds no nil client. -/
def Registry.NoNil (r : Registry) : Prop := ∀ loc, r.get loc ≠ some none

/-- Collaborators that always answer well: `CreateClient` returns a client and
no error, `MeshName` returns no error. -/
def healthyEnv : TickEnv :=
  { CreateClient := fun _ => { client := true, err := false }
    MeshNameErr := fun _ => false }

/-- Collaborators whose `CreateClient` succeeds and whose `MeshName` fails. -/
def probeFailingEnv : TickEnv :=
  { CreateClient := fun _ => { client := true, err := false }
    MeshNameErr := fun _ => true }

/-- Preferences with an in-cluster configuration and adapters at `locs`. -/
def inClusterPrefs (locs : List String) : Preference :=
  { K8SConfig := some { InClusterConfig := true, Config := none, ContextName := "" }
    MeshAdapters := some (locs.map Adapter.mk) }

/-- Collaborators whose first `CreateClient` call fails, every other call and
every `MeshName` probe succeeding. -/
def firstCreateFailingEnv : TickEnv :=
  { CreateClient := fun k =>
      if k = 0 then { client := false, err := true } else { client := true, err := false }
    MeshNameErr := fun _ => false }

/-- Collaborators whose `MeshName` probe fails for the second adapter only. -/
def secondProbeFailingEnv : TickEnv :=
  { CreateClient := fun _ => { client := true, err := false }
    MeshNameErr := fun k => decide (k = 1) }

/-- A serialization of events that are numbers: one byte, never an error. -/
def marshalNat : Nat → Option Bytes :=
  fun n => some [UInt8.ofNat n]

/-- Sends of which the second stays blocked on a full buffer, `respChan` being
open throughout. -/
def blockedAtSecondSend : Nat → SendResult :=
  fun k => if k = 1 then SendResult.blocked else SendResult.sent

/-- Sends of which the first completes, `respChan` being closed before the
second. -/
def closedAfterFirstSend : Nat → SendResult :=
  fun k => if k = 0 then SendResult.sent else SendResult.closed

/-- Loop state in which client 0 is registered at location "a". -/
def registeredA : LoopState :=
  { localMeshAdapters := [("a", some 0)], allocated := 1 }

/-- Calls that leave the process (`CreateClient`, `MeshName`, `Close`) and sends
on `newAdaptersChan`. -/
def Action.isNetworkOrSend : Action → Bool
  | Action.createClient _ _ _ => true
  | Action.meshName _ _ _ => true
  | Action.close _ => true
  | Action.announce _ _ => true
  | _ => false

/-- Whether no network call and no channel send of the trace happens between a
`Lock` and the following `Unlock`; `held` tells whether the lock is held when
the trace starts. -/
def lockOnlyAcrossMapOps : Bool → List Action → Bool
  | _, [] => true
  | _, Action.lock :: rest => lockOnlyAcrossMapOps true rest
  | _, Action.unlock :: rest => lockOnlyAcrossMapOps false rest
  | held, a :: rest => !(held && a.isNetworkOrSend) && lockOnlyAcrossMapOps held rest

/-- Whether a result of `Recv` ends the listener: `io.EOF`, another error, or an
event that `json.Marshal` rejects. -/
def RecvResult.terminating {Ev : Type} (marshal : Ev → Option Bytes) : RecvResult Ev → Bool
  | RecvResult.event e => (marshal e).isNone
  | RecvResult.eof => true
  | RecvResult.error => true

/-- JSON encoding of a received event. -/
def RecvResult.encoding {Ev : Type} (marshal : Ev → Option Bytes) : RecvResult Ev → Option Bytes
  | RecvResult.event e => marshal e
  | RecvResult.eof => none
  | RecvResult.error => none

/-- JSON encodings of the events received before the first result that ends
the listener, in the order received. -/
def encodingsBeforeStop {Ev : Type} (marshal : Ev → Option Bytes)
    (stream : List (RecvResult Ev)) : List Bytes :=
  (stream.takeWhile (fun r => !r.terminating marshal)).filterMap (RecvResult.encoding marshal)

/-- Clients sent on `newAdaptersChan` according to the log, oldest first. -/
def announcedOps : List Op → List ClientId
  | [] => []
  | Op.main (Action.announce _ c) :: rest => c :: announcedOps rest
  | _ :: rest => announcedOps rest

/-- The `Close` calls of line 64 according to the log, oldest first: the client
the goroutine was started for, and the client it closed. -/
def listenerCloses : List Op → List (ClientId × MeshClient)
  | [] => []
  | Op.listenerClose c target :: rest => (c, target) :: listenerCloses rest
  | _ :: rest => listenerCloses rest

/-- Number of `Close` calls made on client `c`, by the reconciliation loop and
by listener goroutines. -/
def closeCalls (c : ClientId) (log : List Op) : Nat :=
  log.count (Op.main (Action.close (some c)))
    + ((listenerCloses log).map Prod.snd).count (some c)

/-- Bookkeeping kept by every execution: a client is announced at most once,
announced clients are allocated ones, the listener goroutine started for an
announced client is either running or has made its one `Close` call, and that
call was on its own client when the loop variable is not shared. -/
structure Pipeline.Consistent (p : Pipeline) : Prop where
  nodup : (announcedOps p.log).Nodup
  fresh : ∀ c ∈ announcedOps p.log, c < p.loop.allocated
  owned : ∀ c, (announcedOps p.log).count c
    = ((listenerCloses p.log).map Prod.fst).count c + p.listeners.count c
  own : p.sharedLoopVar = false → ∀ e ∈ listenerCloses p.log, e.2 = some e.1

end EventsStreamer

/-! # Conversion of a stored result (models/load-test.go, handlers/fetch_results_handler.go)

A shallow embedding of `MesheryResult.ConvertToSpec` and of `GetResultHandler`.
A Go run-time panic is an outcome of its own, next to a returned value and a
returned error.
-/

namespace Models

/-- Go values held behind `interface{}` in `MesheryResult.Result`, as far as
`ConvertToSpec` tells them apart: a `string`, an `int64`, a
`map[string]interface{}`, the `map[int]int64` stored at line 108, a
`[]*K8SNode` of the given length, and any other value, nil included. -/
inductive Value where
  | str (s : String)
  | int64 (n : Int)
  | object (fields : List (String × Value))
  | retcodes (codes : List (Int × Int))
  | nodes (count : Nat)
  | other

/-- A `map[string]interface{}`, as an association list read front to back. -/
abbrev Fields := List (String × Value)

/-- Value of `fields[key]` with its presence flag; reading a nil map finds
nothing. -/
def Fields.get (fields : Option Fields) (key : String) : Option Value :=
  match fields with
  | none => none
  | some l => l.lookup key

/-- Effect of `fields[key] = v` on a non-nil map. -/
def Fields.set (fields : Fields) (key : String) (v : Value) : Fields :=
  (key, v) :: fields.filter (fun e => !(e.1 == key))

/-- The fields of `MesheryResult` read by `ConvertToSpec`: `ID` in its string
form, and `Result`, `none` being the nil map. -/
structure MesheryResult where
  ID : String
  Result : Option Fields

/-- The type `stats.Percentile` (fortio), one entry of
`HistogramData.Percentiles`; `float64` values are taken to be finite and written
as rationals. -/
structure StatsPercentile where
  Percentile : Rat
  Value : Rat
deriving DecidableEq, Repr

/-- The fields of `stats.HistogramData` (fortio) read by `ConvertToSpec`. -/
structure HistogramData where
  Min : Rat
  Max : Rat
  Avg : Rat
  Percentiles : List StatsPercentile
deriving DecidableEq, Repr

/-- The fields of `periodic.RunnerResults` (fortio) read by `ConvertToSpec`;
times and durations count nanoseconds; `DurationHistogram` is a pointer, `none`
being nil. -/
structure RunnerResults where
  StartTime : Int
  ActualDuration : Int
  NumThreads : Int
  ActualQPS : Rat
  DurationHistogram : Option HistogramData
deriving DecidableEq, Repr

/-- The fields of `fhttp.HTTPRunnerResults` (fortio) read by `ConvertToSpec`. -/
structure HTTPRunnerResults where
  RunnerResults : RunnerResults
  URL : String
deriving DecidableEq, Repr

/-- The struct `LatenciesMs` of the benchmark spec. -/
structure LatenciesMs where
  Min : Rat
  Max : Rat
  Average : Rat
  P50 : Rat
  P90 : Rat
  P99 : Rat
deriving DecidableEq, Repr

/-- The fields of `MeshClientConfig` written by `ConvertToSpec`. -/
structure MeshClientConfig where
  Connections : Int
  Rps : Rat
  Internal : Bool
  LatenciesMs : Option LatenciesMs
deriving DecidableEq, Repr

/-- The fields of `Environment` written by `ConvertToSpec`. -/
structure Environment where
  Kubernetes : String
  NodeCount : Nat
deriving DecidableEq, Repr

/-- The fields of `BenchmarkSpec` written by `ConvertToSpec`. -/
structure BenchmarkSpec where
  Env : Environment
  Client : MeshClientConfig
  ExpUUID : String
  EndpointURL : String
  StartTime : Int
  EndTime : Int
deriving DecidableEq, Repr

/-- Run-time panics of the Go code: an assignment to an entry of a nil map, a
failed single-value type assertion, a method call or field read through nil. -/
inductive Panic where
  | assignToNilMap
  | interfaceConversion
  | nilDereference
deriving DecidableEq, Repr

/-- How a call ends: it returns a value, it returns an error, or it panics. -/
inductive Outcome (α : Type) where
  | value (a : α)
  | error
  | panic (p : Panic)
deriving DecidableEq, Repr

/-- Library calls made by `ConvertToSpec`: `strconv.Atoi` with its error
discarded, and `json.Marshal` of the result map followed by `json.Unmarshal`
into `fhttp.HTTPRunnerResults`, `none` when either returns an error. -/
structure ConvertEnv where
  Atoi : String → Int
  decodeHTTP : Fields → Option HTTPRunnerResults

/-- Effect of `retcodes[k] = v` on the `map[int]int64` of line 102. -/
def setRetcode (codes : List (Int × Int)) (k v : Int) : List (Int × Int) :=
  (k, v) :: codes.filter (fun e => !(e.1 == k))

/-- The loop of lines 103-106 over the entries of `retcodesString`. -/
def convertRetcodes (env : ConvertEnv) (retcodesString : Fields) : List (Int × Int) :=
  retcodesString.foldl
    (fun codes kv =>
      setRetcode codes (env.Atoi kv.1)
        (match kv.2 with
         | Value.int64 n => n
         | _ => 0))
    []

/-- The loop of lines 143-152 over the percentiles of the histogram. -/
def fillPercentiles (l : LatenciesMs) (percentiles : List StatsPercentile) : LatenciesMs :=
  percentiles.foldl
    (fun acc p =>
      if p.Percentile = 50 then { acc with P50 := p.Value }
      else if p.Percentile = 90 then { acc with P90 := p.Value }
      else if p.Percentile = 99 then { acc with P99 := p.Value }
      else acc)
    l

/-- Lines 154-165: the Kubernetes version and node count read from the entry
"kubernetes" of the result map. -/
def fillEnvironment (fields : Fields) : Environment :=
  match fields.lookup "kubernetes" with
  | none => { Kubernetes := "", NodeCount := 0 }
  | some k8sI =>
    let k8s : Option Fields :=
      match k8sI with
      | Value.object l => some l
      | _ => none
    let version : String :=
      match Fields.get k8s "server_version" with
      | some (Value.str v) => v
      | _ => ""
    match Fields.get k8s "nodes" with
    | some (Value.nodes count) => { Kubernetes := version, NodeCount := count }
    | _ => { Kubernetes := version, NodeCount := 0 }

/-- Lines 132-166: the spec filled from `results.Result()`; `results` is the
interface variable of line 98, `none` while nothing has been assigned to it. -/
def fillSpec (expUUID : String) (endpointURL : String) (fields : Fields)
    (results : Option RunnerResults) : Outcome BenchmarkSpec :=
  match results with
  | none => Outcome.panic Panic.nilDereference
  | some result =>
    match result.DurationHistogram with
    | none => Outcome.panic Panic.nilDereference
    | some histogram =>
      Outcome.value
        { Env := fillEnvironment fields
          Client :=
            { Connections := result.NumThreads
              Rps := result.ActualQPS
              Internal := false
              LatenciesMs := some (fillPercentiles
                { Min := histogram.Min, Max := histogram.Max, Average := histogram.Avg,
                  P50 := 0, P90 := 0, P99 := 0 } histogram.Percentiles) }
          ExpUUID := expUUID
          EndpointURL := endpointURL
          StartTime := result.StartTime
          EndTime := result.StartTime + result.ActualDuration }

/-- The method `ConvertToSpec` of lines 90-167. -/
def MesheryResult.ConvertToSpec (env : ConvertEnv) (m : MesheryResult) : Outcome BenchmarkSpec :=
  -- retcodesString, _ := m.Result["RetCodes"].(map[string]interface{})
  let retcodesString : Fields :=
    match Fields.get m.Result "RetCodes" with
    | some (Value.object l) => l
    | _ => []
  let retcodes := convertRetcodes env retcodesString
  -- m.Result["RetCodes"] = retcodes
  match m.Result with
  | none => Outcome.panic Panic.assignToNilMap
  | some fields =>
    let fields1 := Fields.set fields "RetCodes" (Value.retcodes retcodes)
    -- if m.Result["RunType"].(string) == "HTTP"
    match fields1.lookup "RunType" with
    | some (Value.str runType) =>
      if runType = "HTTP" then
        match env.decodeHTTP fields1 with
        | none => Outcome.error
        | some httpResults =>
          fillSpec m.ID httpResults.URL fields1 (some httpResults.RunnerResults)
      else
        fillSpec m.ID "" fields1 none
    | _ => Outcome.panic Panic.interfaceConversion

/-- What `GetResultHandler` sends: a status with a message, or the YAML
document with its file name. -/
inductive Response where
  | status (code : Nat) (message : String)
  | yaml (filename : String) (body : List UInt8)
deriving DecidableEq, Repr

/-- Collaborators of `GetResultHandler`: `uuid.FromStringOrNil`, `none` being
`uuid.Nil`, the provider's `GetResult`, `none` when it returns an error, the
library calls of `ConvertToSpec`, and `yaml.Marshal`, `none` when it returns an
error. -/
structure HandlerEnv where
  FromStringOrNil : String → Option String
  GetResult : String → Option MesheryResult
  convert : ConvertEnv
  yamlMarshal : BenchmarkSpec → Option (List UInt8)

/-- How a run of the handler ends: it has sent a response, or it has
panicked. -/
inductive HandlerResult where
  | responded (r : Response)
  | panicked (p : Panic)
deriving DecidableEq, Repr

/-- The handler `GetResultHandler` of lines 40-78, for a request with the given
method and `id` query parameter. -/
def GetResultHandler (env : HandlerEnv) (method : String) (id : String) : HandlerResult :=
  if method ≠ "GET" then HandlerResult.responded (Response.status 404 "")
  else if id = "" then
    HandlerResult.responded (Response.status 400 "please provide a result id")
  else
    match env.FromStringOrNil id with
    | none => HandlerResult.responded (Response.status 400 "please provide a valid result id")
    | some key =>
      match env.GetResult key with
      | none =>
        HandlerResult.responded (Response.status 500 "error while getting load test results")
      | some bdr =>
        match bdr.ConvertToSpec env.convert with
        | Outcome.panic p => HandlerResult.panicked p
        | Outcome.error =>
          HandlerResult.responded (Response.status 500 "error while getting load test results")
        | Outcome.value sp =>
          match env.yamlMarshal sp with
          | none =>
            HandlerResult.responded (Response.status 500 "error while getting test result")
          | some b =>
            HandlerResult.responded (Response.yaml ("result_" ++ bdr.ID ++ ".yaml") b)

/-- Library calls that decode nothing: `Atoi` answers 0 and the JSON round trip
fails. -/
def failingConvertEnv : ConvertEnv :=
  { Atoi := fun _ => 0, decodeHTTP := fun _ => none }

/-- Library calls whose JSON round trip yields a run starting at time 0 with
one thread and a histogram without percentiles. -/
def decodingConvertEnv : ConvertEnv :=
  { Atoi := fun _ => 0
    decodeHTTP := fun _ =>
      some
        { RunnerResults :=
            { StartTime := 0, ActualDuration := 1000, NumThreads := 1, ActualQPS := 0,
              DurationHistogram := some { Min := 0, Max := 0, Avg := 0, Percentiles := [] } }
          URL := "http://localhost" } }

/-- A provider that holds, under every key, the result `m`. -/
def providerOf (m : MesheryResult) (convert : ConvertEnv) : HandlerEnv :=
  { FromStringOrNil := fun id => some id
    GetResult := fun _ => some m
    convert := convert
    yamlMarshal := fun _ => some [] }

end Models

namespace EventsStreamer

/-! ## Facts about the registry -/

theorem Registry.get_set (r : Registry) (loc : String) (v : MeshClient) (loc' : String) :
    (Registry.set r loc v).get loc' = if loc = loc' then some v else r.get loc' := by
  induction r with
  | nil =>
    by_cases h : loc = loc' <;> simp [Registry.set, Registry.get, h]
  | cons e rest ih =>
    obtain ⟨k, w⟩ := e
    by_cases hk : k = loc
    · subst hk
      by_cases h : k = loc' <;> simp [Registry.set, Registry.get, h]
    · by_cases hk' : k = loc'
      · subst hk'
        have : ¬ loc = k := fun h => hk h.symm
        simp [Registry.set, Registry.get, hk, this]
      · simp [Registry.set, Registry.get, hk, hk', ih]

theorem Registry.get_delete (r : Registry) (loc loc' : String) :
    (Registry.delete r loc).get loc' = if loc = loc' then none else r.get loc' := by
  induction r with
  | nil => simp [Registry.delete, Registry.get]
  | cons e rest ih =>
    obtain ⟨k, w⟩ := e
    by_cases hk : k = loc
    · subst hk
      by_cases h : k = loc'
      · subst h
        simpa [Registry.delete, Registry.get] using ih
      · simp [Registry.delete, Registry.get, h, ih]
    · by_cases hk' : k = loc'
      · subst hk'
        have : ¬ loc = k := fun h => hk h.symm
        simp [Registry.delete, Registry.get, hk, this]
      · simp [Registry.delete, Registry.get, hk, hk', ih]

theorem Registry.mem_keys_iff (r : Registry) (loc : String) :
    loc ∈ r.keys ↔ (r.get loc).isSome = true := by
  induction r with
  | nil => simp [Registry.keys, Registry.get]
  | cons e rest ih =>
    obtain ⟨k, w⟩ := e
    have ih' : loc ∈ List.map Prod.fst rest ↔ (Registry.get rest loc).isSome = true := ih
    by_cases hk : k = loc
    · simp [Registry.keys, Registry.get, hk]
    · have : ¬ loc = k := fun h => hk h.symm
      simp [Registry.keys, Registry.get, hk, this, ih']

theorem Registry.keys_set (r : Registry) (loc : String) (v : MeshClient) :
    (Registry.set r loc v).keys = if loc ∈ r.keys then r.keys else r.keys ++ [loc] := by
  induction r with
  | nil => simp [Registry.set, Registry.keys]
  | cons e rest ih =>
    obtain ⟨k, w⟩ := e
    have ih' : List.map Prod.fst (Registry.set rest loc v)
        = if loc ∈ List.map Prod.fst rest then List.map Prod.fst rest
          else List.map Prod.fst rest ++ [loc] := ih
    by_cases hk : k = loc
    · simp [Registry.set, Registry.keys, hk]
    · have : ¬ loc = k := fun h => hk h.symm
      by_cases hm : loc ∈ List.map Prod.fst rest
      · simp [Registry.set, Registry.keys, hk, this, ih', hm]
      · simp [Registry.set, Registry.keys, hk, this, ih', hm]

theorem Registry.keys_set_nodup (r : Registry) (loc : String) (v : MeshClient)
    (h : r.keys.Nodup) : (Registry.set r loc v).keys.Nodup := by
  rw [Registry.keys_set]
  by_cases hm : loc ∈ r.keys
  · simpa [hm] using h
  · simp only [hm, if_false]
    exact List.Nodup.append h (List.nodup_singleton loc) (by
      intro a ha hb
      simp at hb
      exact hm (hb ▸ ha))

theorem Registry.keys_delete_sublist (r : Registry) (loc : String) :
    (Registry.delete r loc).keys.Sublist r.keys := by
  induction r with
  | nil => simp [Registry.delete, Registry.keys]
  | cons e rest ih =>
    obtain ⟨k, w⟩ := e
    have ih' : (List.map Prod.fst (Registry.delete rest loc)).Sublist (List.map Prod.fst rest) := ih
    by_cases hk : k = loc
    · simpa [Registry.delete, Registry.keys, hk] using List.Sublist.cons _ ih'
    · simpa [Registry.delete, Registry.keys, hk] using ih'

theorem Registry.keys_delete_nodup (r : Registry) (loc : String)
    (h : r.keys.Nodup) : (Registry.delete r loc).keys.Nodup :=
  List.Nodup.sublist (Registry.keys_delete_sublist r loc) h

/-! ## Facts about one pass of the adapter loop -/

theorem reconcileAdapter_get_other (env : TickEnv) (i : Nat) (ma : Adapter) (s : IterState)
    (L : String) (h : ma.Location ≠ L) :
    (reconcileAdapter env i ma s).localMeshAdapters.get L = s.localMeshAdapters.get L := by
  unfold reconcileAdapter
  cases hf : s.localMeshAdapters.get ma.Location with
  | none =>
    cases hc : (env.CreateClient i).client <;> cases he : (env.CreateClient i).err <;>
      cases hp : env.MeshNameErr i <;>
      simp [hf, hc, he, hp, Registry.get_set, Registry.get_delete, h]
  | some c =>
    cases c <;> cases hp : env.MeshNameErr i <;>
      simp [hf, hp, Registry.get_set, Registry.get_delete, h]

theorem reconcileAdapter_trace_extends (env : TickEnv) (i : Nat) (ma : Adapter) (s : IterState) :
    s.trace <+: (reconcileAdapter env i ma s).trace := by
  unfold reconcileAdapter
  cases hf : s.localMeshAdapters.get ma.Location with
  | none =>
    cases hc : (env.CreateClient i).client <;> cases he : (env.CreateClient i).err <;>
      cases hp : env.MeshNameErr i <;>
      simp [hf, hc, he, hp, List.append_assoc]
  | some c =>
    cases c <;> cases hp : env.MeshNameErr i <;>
      simp [hf, hp, List.append_assoc]

theorem reconcileAdapter_allocated_le (env : TickEnv) (i : Nat) (ma : Adapter) (s : IterState) :
    s.allocated ≤ (reconcileAdapter env i ma s).allocated := by
  unfold reconcileAdapter
  cases hf : s.localMeshAdapters.get ma.Location with
  | none =>
    cases hc : (env.CreateClient i).client <;> cases he : (env.CreateClient i).err <;>
      cases hp : env.MeshNameErr i <;>
      simp [hf, hc, he, hp]
  | some c =>
    cases c <;> cases hp : env.MeshNameErr i <;>
      simp [hf, hp]

theorem reconcileAdapter_keys_nodup (env : TickEnv) (i : Nat) (ma : Adapter) (s : IterState)
    (h : s.localMeshAdapters.keys.Nodup) :
    (reconcileAdapter env i ma s).localMeshAdapters.keys.Nodup := by
  unfold reconcileAdapter
  cases hf : s.localMeshAdapters.get ma.Location with
  | none =>
    cases hc : (env.CreateClient i).client <;> cases he : (env.CreateClient i).err <;>
      cases hp : env.MeshNameErr i <;>
      simp [hf, hc, he, hp, h, Registry.keys_set_nodup, Registry.keys_delete_nodup]
  | some c =>
    cases c <;> cases hp : env.MeshNameErr i <;>
      simp [hf, hp, h, Registry.keys_set_nodup, Registry.keys_delete_nodup]

/-! ## Facts about the adapter loop and the tick -/

theorem reconcileFrom_get_other (env : TickEnv) (L : String) (rest : List Adapter) :
    ∀ (i : Nat) (s : IterState), (∀ a ∈ rest, a.Location ≠ L) →
      (reconcileFrom env i rest s).localMeshAdapters.get L = s.localMeshAdapters.get L := by
  induction rest with
  | nil => intro i s _; rfl
  | cons ma tl ih =>
    intro i s h
    simp only [reconcileFrom]
    rw [ih (i + 1) _ (fun a ha => h a (List.mem_cons_of_mem _ ha))]
    exact reconcileAdapter_get_other env i ma s L (h ma (List.mem_cons_self _ _))

theorem reconcileFrom_trace_extends (env : TickEnv) (rest : List Adapter) :
    ∀ (i : Nat) (s : IterState), s.trace <+: (reconcileFrom env i rest s).trace := by
  induction rest with
  | nil => intro i s; exact List.prefix_refl _
  | cons ma tl ih =>
    intro i s
    simp only [reconcileFrom]
    exact List.IsPrefix.trans (reconcileAdapter_trace_extends env i ma s) (ih (i + 1) _)

theorem reconcileFrom_trace_mem (env : TickEnv) (rest : List Adapter) (i : Nat) (s : IterState)
    (a : Action) (h : a ∈ s.trace) : a ∈ (reconcileFrom env i rest s).trace :=
  (reconcileFrom_trace_extends env rest i s).subset h

theorem reconcileFrom_allocated_le (env : TickEnv) (rest : List Adapter) :
    ∀ (i : Nat) (s : IterState), s.allocated ≤ (reconcileFrom env i rest s).allocated := by
  induction rest with
  | nil => intro i s; exact Nat.le_refl _
  | cons ma tl ih =>
    intro i s
    simp only [reconcileFrom]
    exact Nat.le_trans (reconcileAdapter_allocated_le env i ma s) (ih (i + 1) _)

theorem reconcileFrom_keys_nodup (env : TickEnv) (rest : List Adapter) :
    ∀ (i : Nat) (s : IterState), s.localMeshAdapters.keys.Nodup →
      (reconcileFrom env i rest s).localMeshAdapters.keys.Nodup := by
  induction rest with
  | nil => intro i s h; exact h
  | cons ma tl ih =>
    intro i s h
    simp only [reconcileFrom]
    exact ih (i + 1) _ (reconcileAdapter_keys_nodup env i ma s h)

theorem tick_drain (prefObj : Preference) (env : TickEnv) (st : LoopState)
    (h : noValidK8SConfig prefObj = true ∨ configuredAdapters prefObj = []) :
    tick prefObj env st = drainRegistry st := by
  unfold tick
  rcases h with h | h
  · simp [h]
  · have : (prefObj.MeshAdapters.getD []) = [] := h
    simp [this]

theorem tick_reconcile (prefObj : Preference) (env : TickEnv) (st : LoopState)
    (hk : noValidK8SConfig prefObj = false) (ha : configuredAdapters prefObj ≠ []) :
    tick prefObj env st =
      ({ localMeshAdapters := (reconcileFrom env 0 (configuredAdapters prefObj)
            { localMeshAdapters := st.localMeshAdapters, allocated := st.allocated,
              trace := [Action.lock] }).localMeshAdapters,
         allocated := (reconcileFrom env 0 (configuredAdapters prefObj)
            { localMeshAdapters := st.localMeshAdapters, allocated := st.allocated,
              trace := [Action.lock] }).allocated },
       (reconcileFrom env 0 (configuredAdapters prefObj)
            { localMeshAdapters := st.localMeshAdapters, allocated := st.allocated,
              trace := [Action.lock] }).trace ++ [Action.unlock]) := by
  unfold tick
  have : (prefObj.MeshAdapters.getD []) ≠ [] := ha
  simp [hk, this, configuredAdapters]

/-! ## Probes and registry entries -/

theorem reconcileAdapter_meshName_mem (env : TickEnv) (i : Nat) (ma : Adapter) (s : IterState)
    (L : String) (c : ClientId) (e : Bool)
    (h : Action.meshName L c e ∈ (reconcileAdapter env i ma s).trace) :
    Action.meshName L c e ∈ s.trace ∨ ma.Location = L := by
  revert h
  unfold reconcileAdapter
  cases hf : s.localMeshAdapters.get ma.Location with
  | none =>
    cases hc : (env.CreateClient i).client <;> cases he : (env.CreateClient i).err <;>
      cases hp : env.MeshNameErr i <;>
      simp [hf, hc, he, hp] <;> tauto
  | some c' =>
    cases c' <;> cases hp : env.MeshNameErr i <;>
      simp [hf, hp] <;> tauto

theorem reconcileFrom_meshName_mem (env : TickEnv) (L : String) (c : ClientId) (e : Bool)
    (rest : List Adapter) :
    ∀ (i : Nat) (s : IterState), Action.meshName L c e ∈ (reconcileFrom env i rest s).trace →
      Action.meshName L c e ∈ s.trace ∨ L ∈ rest.map Adapter.Location := by
  induction rest with
  | nil => intro i s h; exact Or.inl h
  | cons ma tl ih =>
    intro i s h
    simp only [reconcileFrom] at h
    rcases ih (i + 1) _ h with h1 | h1
    · rcases reconcileAdapter_meshName_mem env i ma s L c e h1 with h2 | h2
      · exact Or.inl h2
      · exact Or.inr (by simp [h2])
    · exact Or.inr (by simp at h1 ⊢; exact Or.inr h1)

theorem reconcileAdapter_noNil (env : TickEnv) (i : Nat) (ma : Adapter) (s : IterState)
    (hcc : (env.CreateClient i).client = !(env.CreateClient i).err)
    (h : s.localMeshAdapters.NoNil) :
    (reconcileAdapter env i ma s).localMeshAdapters.NoNil := by
  intro loc
  by_cases hl : ma.Location = loc
  · subst hl
    have h0 := h ma.Location
    revert hcc h0
    unfold reconcileAdapter
    cases hf : s.localMeshAdapters.get ma.Location with
    | none =>
      cases hc : (env.CreateClient i).client <;> cases he : (env.CreateClient i).err <;>
        cases hp : env.MeshNameErr i <;>
        simp [hf, hc, he, hp, Registry.get_set, Registry.get_delete]
    | some c' =>
      cases c' <;> cases hp : env.MeshNameErr i <;>
        simp [hf, hp, Registry.get_set, Registry.get_delete]
  · rw [reconcileAdapter_get_other env i ma s loc hl]
    exact h loc

theorem reconcileAdapter_self_healthy (env : TickEnv) (i : Nat) (ma : Adapter) (s : IterState)
    (hcc : (env.CreateClient i).client = !(env.CreateClient i).err)
    (hnil : s.localMeshAdapters.get ma.Location ≠ some none)
    (hno : ∀ c e, Action.meshName ma.Location c e ∉ s.trace) :
    ((reconcileAdapter env i ma s).localMeshAdapters.get ma.Location).isSome = true ↔
      ∃ c, Action.meshName ma.Location c false ∈ (reconcileAdapter env i ma s).trace := by
  revert hcc hnil
  unfold reconcileAdapter
  cases hf : s.localMeshAdapters.get ma.Location with
  | none =>
    cases hc : (env.CreateClient i).client <;> cases he : (env.CreateClient i).err <;>
      cases hp : env.MeshNameErr i <;>
      simp [hf, hc, he, hp, Registry.get_set, Registry.get_delete, hno]
  | some c' =>
    cases c' <;> cases hp : env.MeshNameErr i <;>
      simp [hf, hp, Registry.get_set, Registry.get_delete, hno]

theorem reconcileFrom_healthy (env : TickEnv)
    (hcc : ∀ k, (env.CreateClient k).client = !(env.CreateClient k).err)
    (L : String) (rest : List Adapter) :
    ∀ (i : Nat) (s : IterState), (rest.map Adapter.Location).Nodup →
      s.localMeshAdapters.NoNil → L ∈ rest.map Adapter.Location →
      (∀ c e, Action.meshName L c e ∉ s.trace) →
      (((reconcileFrom env i rest s).localMeshAdapters.get L).isSome = true ↔
        ∃ c, Action.meshName L c false ∈ (reconcileFrom env i rest s).trace) := by
  induction rest with
  | nil => intro i s _ _ hL; simp at hL
  | cons ma tl ih =>
    intro i s hd hn hL hno
    simp only [List.map_cons, List.nodup_cons] at hd
    simp only [reconcileFrom]
    by_cases hl : ma.Location = L
    · subst hl
      have hnot : ∀ a ∈ tl, a.Location ≠ ma.Location := by
        intro a ha heq
        exact hd.1 (List.mem_map.mpr ⟨a, ha, heq⟩)
      rw [reconcileFrom_get_other env ma.Location tl (i + 1) _ hnot,
        reconcileAdapter_self_healthy env i ma s (hcc i) (hn ma.Location) hno]
      constructor
      · rintro ⟨c, hc⟩
        exact ⟨c, reconcileFrom_trace_mem env tl (i + 1) _ _ hc⟩
      · rintro ⟨c, hc⟩
        rcases reconcileFrom_meshName_mem env ma.Location c false tl (i + 1) _ hc with h1 | h1
        · exact ⟨c, h1⟩
        · exact absurd h1 hd.1
    · have hL' : L ∈ tl.map Adapter.Location := by
        simp only [List.map_cons, List.mem_cons] at hL
        rcases hL with hL | hL
        · exact absurd hL.symm hl
        · exact hL
      refine ih (i + 1) _ hd.2 (reconcileAdapter_noNil env i ma s (hcc i) hn) hL' ?_
      intro c e hmem
      rcases reconcileAdapter_meshName_mem env i ma s L c e hmem with h1 | h1
      · exact hno c e h1
      · exact hl h1

theorem Registry.mem_of_get (r : Registry) (loc : String) (v : MeshClient)
    (h : r.get loc = some v) : (loc, v) ∈ r := by
  induction r with
  | nil => simp [Registry.get] at h
  | cons e rest ih =>
    obtain ⟨k, w⟩ := e
    by_cases hk : k = loc
    · simp [Registry.get, hk] at h
      simp [hk, h]
    · simp [Registry.get, hk] at h
      exact List.mem_cons_of_mem _ (ih h)

theorem Registry.noNil_of_forall (r : Registry) (h : ∀ e ∈ r, e.2 ≠ none) : r.NoNil := by
  intro loc hget
  exact h _ (Registry.mem_of_get r loc none hget) rfl

/-! ## C1: the registry after one tick -/

/-- C1 (as stated) fails: with client 0 registered at "a" and only "b" configured,
a tick with a valid configuration leaves "a" in the registry and does not close
its client, so the registry is not the set of configured and healthy locations. -/
theorem tick_keeps_unconfigured_location :
    (tick (inClusterPrefs ["b"]) healthyEnv registeredA).1.localMeshAdapters
        = [("a", some 0), ("b", some 1)]
      ∧ "a" ∉ configuredLocations (inClusterPrefs ["b"])
      ∧ Action.close (some 0) ∉ (tick (inClusterPrefs ["b"]) healthyEnv registeredA).2
      ∧ ¬ (∀ L, L ∈ (tick (inClusterPrefs ["b"]) healthyEnv registeredA).1.localMeshAdapters.keys ↔
            (L ∈ configuredLocations (inClusterPrefs ["b"]) ∧
              ∃ c, Action.meshName L c false ∈
                (tick (inClusterPrefs ["b"]) healthyEnv registeredA).2)) := by
  refine ⟨by decide, by decide, by decide, ?_⟩
  intro h
  have h1 := (h "a").mp (by decide)
  exact absurd h1.1 (by decide)

/-- C1 (amended): after a tick with a valid configuration whose adapters have
pairwise distinct locations, `CreateClient` returning a client exactly when it
returns no error, the registry has at most one entry per location; a location is
in it exactly when a `MeshName` probe for it succeeded during the tick, or when
it is not configured and was in the registry before; and the entry of a location
that is not configured is the one it had before the tick. -/
theorem tick_registry_healthy_or_unconfigured (prefObj : Preference) (env : TickEnv)
    (st : LoopState)
    (hk : noValidK8SConfig prefObj = false)
    (hne : configuredAdapters prefObj ≠ [])
    (hd : (configuredLocations prefObj).Nodup)
    (hreg : st.localMeshAdapters.keys.Nodup)
    (hnil : ∀ e ∈ st.localMeshAdapters, e.2 ≠ none)
    (hcc : ∀ k, (env.CreateClient k).client = !(env.CreateClient k).err) :
    (tick prefObj env st).1.localMeshAdapters.keys.Nodup
      ∧ (∀ L, L ∈ (tick prefObj env st).1.localMeshAdapters.keys ↔
          ((∃ c, Action.meshName L c false ∈ (tick prefObj env st).2)
            ∨ (L ∉ configuredLocations prefObj ∧ L ∈ st.localMeshAdapters.keys)))
      ∧ (∀ L, L ∉ configuredLocations prefObj →
          (tick prefObj env st).1.localMeshAdapters.get L = st.localMeshAdapters.get L) := by
  rw [tick_reconcile prefObj env st hk hne]
  have hother : ∀ L, L ∉ configuredLocations prefObj →
      (reconcileFrom env 0 (configuredAdapters prefObj)
        { localMeshAdapters := st.localMeshAdapters, allocated := st.allocated,
          trace := [Action.lock] }).localMeshAdapters.get L = st.localMeshAdapters.get L := by
    intro L hL
    refine reconcileFrom_get_other env L (configuredAdapters prefObj) 0 _ ?_
    intro a ha heq
    exact hL (List.mem_map.mpr ⟨a, ha, heq⟩)
  refine ⟨reconcileFrom_keys_nodup env _ 0 _ hreg, ?_, hother⟩
  intro L
  simp only [Registry.mem_keys_iff, List.mem_append, List.mem_singleton, reduceCtorEq, or_false]
  by_cases hL : L ∈ configuredLocations prefObj
  · rw [reconcileFrom_healthy env hcc L (configuredAdapters prefObj) 0 _ hd
      (Registry.noNil_of_forall _ hnil) hL (by simp)]
    simp [hL]
  · rw [hother L hL]
    constructor
    · intro h
      exact Or.inr ⟨hL, h⟩
    · rintro (⟨c, hc⟩ | ⟨_, h⟩)
      · rcases reconcileFrom_meshName_mem env L c false _ 0 _ hc with h1 | h1
        · simp at h1
        · exact absurd h1 hL
      · exact h

/-- C1 (amended), at a concrete tick: "a" is registered and not configured, "b"
is configured and healthy. -/
theorem tick_registry_healthy_or_unconfigured_witness :
    noValidK8SConfig (inClusterPrefs ["b"]) = false
      ∧ (configuredLocations (inClusterPrefs ["b"])).Nodup
      ∧ (tick (inClusterPrefs ["b"]) healthyEnv registeredA).1.localMeshAdapters.get "a"
          = registeredA.localMeshAdapters.get "a" :=
  ⟨by decide, by decide,
    (tick_registry_healthy_or_unconfigured (inClusterPrefs ["b"]) healthyEnv registeredA
      (by decide) (by decide) (by decide) (by decide) (by decide) (fun _ => rfl)).2.2
      "a" (by decide)⟩

/-! ## C3: a failed probe evicts the entry and the next tick reconnects -/

theorem reconcileAdapter_probe_failed (env : TickEnv) (i : Nat) (ma : Adapter) (s : IterState)
    (L : String) (c : ClientId)
    (h : Action.meshName L c true ∈ (reconcileAdapter env i ma s).trace) :
    Action.meshName L c true ∈ s.trace ∨
      (ma.Location = L ∧ Action.close (some c) ∈ (reconcileAdapter env i ma s).trace
        ∧ (reconcileAdapter env i ma s).localMeshAdapters.get L = none) := by
  revert h
  unfold reconcileAdapter
  cases hf : s.localMeshAdapters.get ma.Location with
  | none =>
    cases hc : (env.CreateClient i).client <;> cases he : (env.CreateClient i).err <;>
      cases hp : env.MeshNameErr i <;>
      simp [hf, hc, he, hp, Registry.get_set, Registry.get_delete] <;> tauto
  | some c' =>
    cases c' <;> cases hp : env.MeshNameErr i <;>
      simp [hf, hp, Registry.get_set, Registry.get_delete] <;> tauto

theorem reconcileFrom_probe_failed (env : TickEnv) (L : String) (c : ClientId)
    (rest : List Adapter) :
    ∀ (i : Nat) (s : IterState), (rest.map Adapter.Location).Nodup →
      Action.meshName L c true ∈ (reconcileFrom env i rest s).trace →
      Action.meshName L c true ∈ s.trace ∨
        (Action.close (some c) ∈ (reconcileFrom env i rest s).trace
          ∧ (reconcileFrom env i rest s).localMeshAdapters.get L = none) := by
  induction rest with
  | nil => intro i s _ h; exact Or.inl h
  | cons ma tl ih =>
    intro i s hd h
    simp only [List.map_cons, List.nodup_cons] at hd
    simp only [reconcileFrom] at h ⊢
    rcases ih (i + 1) _ hd.2 h with h1 | h1
    · rcases reconcileAdapter_probe_failed env i ma s L c h1 with h2 | ⟨hl, hcl, hget⟩
      · exact Or.inl h2
      · refine Or.inr ⟨reconcileFrom_trace_mem env tl (i + 1) _ _ hcl, ?_⟩
        rw [reconcileFrom_get_other env L tl (i + 1) _ ?_]
        · exact hget
        · intro a ha heq
          exact hd.1 (List.mem_map.mpr ⟨a, ha, heq.trans hl.symm⟩)
    · exact Or.inr h1

theorem reconcileAdapter_creates_absent (env : TickEnv) (i : Nat) (ma : Adapter) (s : IterState)
    (h : s.localMeshAdapters.get ma.Location = none) :
    ∃ c e, Action.createClient ma.Location c e ∈ (reconcileAdapter env i ma s).trace := by
  refine ⟨if (env.CreateClient i).client then some s.allocated else none,
    (env.CreateClient i).err, ?_⟩
  unfold reconcileAdapter
  cases hc : (env.CreateClient i).client <;> cases he : (env.CreateClient i).err <;>
    cases hp : env.MeshNameErr i <;>
    simp [h, hc, he, hp]

theorem reconcileFrom_creates_absent (env : TickEnv) (L : String) (rest : List Adapter) :
    ∀ (i : Nat) (s : IterState), s.localMeshAdapters.get L = none →
      L ∈ rest.map Adapter.Location →
      ∃ c e, Action.createClient L c e ∈ (reconcileFrom env i rest s).trace := by
  induction rest with
  | nil => intro i s _ hL; simp at hL
  | cons ma tl ih =>
    intro i s hget hL
    simp only [reconcileFrom]
    by_cases hl : ma.Location = L
    · subst hl
      obtain ⟨c, e, hce⟩ := reconcileAdapter_creates_absent env i ma s hget
      exact ⟨c, e, reconcileFrom_trace_mem env tl (i + 1) _ _ hce⟩
    · have hL' : L ∈ tl.map Adapter.Location := by
        simp only [List.map_cons, List.mem_cons] at hL
        rcases hL with hL | hL
        · exact absurd hL.symm hl
        · exact hL
      refine ih (i + 1) _ ?_ hL'
      rw [reconcileAdapter_get_other env i ma s L hl]
      exact hget

theorem drainRegistry_no_probe (st : LoopState) (L : String) (c : ClientId) (e : Bool) :
    Action.meshName L c e ∉ (drainRegistry st).2 := by
  simp [drainRegistry]

/-- C3: in a tick over adapters with pairwise distinct locations, when the
`MeshName` probe of client `c` for location `L` fails, `Close` is called on `c`
in that tick and `L` has no registry entry at its end; and the next tick, if its
configuration is valid and still lists `L`, calls `CreateClient` for `L`. -/
theorem failed_probe_evicts_and_next_tick_reconnects (prefObj : Preference) (env : TickEnv)
    (st : LoopState) (L : String) (c : ClientId)
    (hd : (configuredLocations prefObj).Nodup)
    (hprobe : Action.meshName L c true ∈ (tick prefObj env st).2) :
    Action.close (some c) ∈ (tick prefObj env st).2
      ∧ (tick prefObj env st).1.localMeshAdapters.get L = none
      ∧ ∀ (prefObj2 : Preference) (env2 : TickEnv),
          noValidK8SConfig prefObj2 = false → L ∈ configuredLocations prefObj2 →
          ∃ c2 e, Action.createClient L c2 e ∈ (tick prefObj2 env2 (tick prefObj env st).1).2 := by
  by_cases hdrain : noValidK8SConfig prefObj = true ∨ configuredAdapters prefObj = []
  · rw [tick_drain prefObj env st hdrain] at hprobe
    exact absurd hprobe (drainRegistry_no_probe st L c true)
  · have hk : noValidK8SConfig prefObj = false := by
      cases h : noValidK8SConfig prefObj
      · rfl
      · exact absurd (Or.inl h) hdrain
    have hne : configuredAdapters prefObj ≠ [] := fun h => hdrain (Or.inr h)
    have hfail : Action.close (some c) ∈ (tick prefObj env st).2
        ∧ (tick prefObj env st).1.localMeshAdapters.get L = none := by
      rw [tick_reconcile prefObj env st hk hne] at hprobe ⊢
      simp only [List.mem_append, List.mem_singleton, reduceCtorEq, or_false] at hprobe ⊢
      rcases reconcileFrom_probe_failed env L c _ 0 _ hd hprobe with h1 | h1
      · simp at h1
      · exact h1
    refine ⟨hfail.1, hfail.2, ?_⟩
    intro prefObj2 env2 hk2 hL2
    have hne2 : configuredAdapters prefObj2 ≠ [] := by
      intro h
      simp [configuredLocations, h] at hL2
    rw [tick_reconcile prefObj2 env2 _ hk2 hne2]
    obtain ⟨c2, e, hce⟩ := reconcileFrom_creates_absent env2 L (configuredAdapters prefObj2) 0
      { localMeshAdapters := (tick prefObj env st).1.localMeshAdapters,
        allocated := (tick prefObj env st).1.allocated, trace := [Action.lock] } hfail.2 hL2
    exact ⟨c2, e, List.mem_append_left _ hce⟩

/-- C3, at a concrete tick: client 0, registered at "a", fails its probe; it is
closed, "a" leaves the registry, and the next tick calls `CreateClient` for "a". -/
theorem failed_probe_evicts_and_next_tick_reconnects_witness :
    Action.meshName "a" 0 true ∈ (tick (inClusterPrefs ["a"]) probeFailingEnv registeredA).2
      ∧ Action.close (some 0) ∈ (tick (inClusterPrefs ["a"]) probeFailingEnv registeredA).2
      ∧ (tick (inClusterPrefs ["a"]) probeFailingEnv registeredA).1.localMeshAdapters.get "a" = none
      ∧ ∃ c2 e, Action.createClient "a" c2 e ∈
          (tick (inClusterPrefs ["a"]) healthyEnv
            (tick (inClusterPrefs ["a"]) probeFailingEnv registeredA).1).2 :=
  ⟨by decide,
    (failed_probe_evicts_and_next_tick_reconnects (inClusterPrefs ["a"]) probeFailingEnv
      registeredA "a" 0 (by decide) (by decide)).1,
    (failed_probe_evicts_and_next_tick_reconnects (inClusterPrefs ["a"]) probeFailingEnv
      registeredA "a" 0 (by decide) (by decide)).2.1,
    (failed_probe_evicts_and_next_tick_reconnects (inClusterPrefs ["a"]) probeFailingEnv
      registeredA "a" 0 (by decide) (by decide)).2.2 (inClusterPrefs ["a"]) healthyEnv
      (by decide) (by decide)⟩

/-! ## C4: announcements -/

theorem announced_append (a b : List Action) :
    announced (a ++ b) = announced a ++ announced b := by
  induction a with
  | nil => rfl
  | cons x rest ih => cases x <;> simp [announced, ih]

theorem mem_announced (t : List Action) (c : ClientId) :
    c ∈ announced t ↔ ∃ loc, Action.announce loc c ∈ t := by
  induction t with
  | nil => simp [announced]
  | cons x rest ih =>
    cases x with
    | announce l d =>
      simp only [announced, List.mem_cons, ih]
      constructor
      · rintro (h | ⟨loc, h⟩)
        · exact ⟨l, Or.inl (by rw [h])⟩
        · exact ⟨loc, Or.inr h⟩
      · rintro ⟨loc, h | h⟩
        · injection h with _ h2
          exact Or.inl h2
        · exact Or.inr ⟨loc, h⟩
    | _ => simp [announced, ih]

theorem reconcileAdapter_registered_healthy (env : TickEnv) (i : Nat) (ma : Adapter)
    (s : IterState) (L : String) (p : MeshClient)
    (hget : s.localMeshAdapters.get L = some p)
    (hok : ∀ c, Action.meshName L c true ∉ (reconcileAdapter env i ma s).trace) :
    (reconcileAdapter env i ma s).localMeshAdapters.get L = some p
      ∧ ∀ c, Action.announce L c ∈ (reconcileAdapter env i ma s).trace →
          Action.announce L c ∈ s.trace := by
  by_cases hl : ma.Location = L
  · subst hl
    revert hok
    unfold reconcileAdapter
    cases p <;> cases hp : env.MeshNameErr i <;> simp [hget, hp]
    intro h
    exact absurd rfl (h _).2
  · refine ⟨(reconcileAdapter_get_other env i ma s L hl).trans hget, ?_⟩
    have hl' : ¬ L = ma.Location := fun h => hl h.symm
    unfold reconcileAdapter
    cases hf : s.localMeshAdapters.get ma.Location with
    | none =>
      cases hc : (env.CreateClient i).client <;> cases he : (env.CreateClient i).err <;>
        cases hp : env.MeshNameErr i <;>
        simp [hf, hc, he, hp, hl']
    | some c' =>
      cases c' <;> cases hp : env.MeshNameErr i <;>
        simp [hf, hp, hl']

theorem reconcileFrom_registered_healthy (env : TickEnv) (L : String) (p : MeshClient)
    (rest : List Adapter) :
    ∀ (i : Nat) (s : IterState), s.localMeshAdapters.get L = some p →
      (∀ c, Action.meshName L c true ∉ (reconcileFrom env i rest s).trace) →
      (reconcileFrom env i rest s).localMeshAdapters.get L = some p
        ∧ ∀ c, Action.announce L c ∈ (reconcileFrom env i rest s).trace →
            Action.announce L c ∈ s.trace := by
  induction rest with
  | nil => intro i s hget _; exact ⟨hget, fun _ h => h⟩
  | cons ma tl ih =>
    intro i s hget hok
    simp only [reconcileFrom] at hok ⊢
    have hstep := reconcileAdapter_registered_healthy env i ma s L p hget
      (fun c hc => hok c (reconcileFrom_trace_mem env tl (i + 1) _ _ hc))
    have htl := ih (i + 1) _ hstep.1 hok
    exact ⟨htl.1, fun c hc => hstep.2 c (htl.2 c hc)⟩

theorem reconcileAdapter_announce (env : TickEnv) (i : Nat) (ma : Adapter) (s : IterState)
    (L : String) (c : ClientId)
    (h : Action.announce L c ∈ (reconcileAdapter env i ma s).trace) :
    Action.announce L c ∈ s.trace ∨
      ((∃ e, Action.createClient L (some c) e ∈ (reconcileAdapter env i ma s).trace)
        ∧ Action.meshName L c false ∈ (reconcileAdapter env i ma s).trace) := by
  revert h
  unfold reconcileAdapter
  cases hf : s.localMeshAdapters.get ma.Location with
  | none =>
    cases hc : (env.CreateClient i).client <;> cases he : (env.CreateClient i).err <;>
      cases hp : env.MeshNameErr i <;>
      simp [hf, hc, he, hp] <;> tauto
  | some c' =>
    cases c' <;> cases hp : env.MeshNameErr i <;>
      simp [hf, hp] <;> tauto

theorem reconcileFrom_announce (env : TickEnv) (L : String) (c : ClientId)
    (rest : List Adapter) :
    ∀ (i : Nat) (s : IterState), Action.announce L c ∈ (reconcileFrom env i rest s).trace →
      Action.announce L c ∈ s.trace ∨
        ((∃ e, Action.createClient L (some c) e ∈ (reconcileFrom env i rest s).trace)
          ∧ Action.meshName L c false ∈ (reconcileFrom env i rest s).trace) := by
  induction rest with
  | nil => intro i s h; exact Or.inl h
  | cons ma tl ih =>
    intro i s h
    simp only [reconcileFrom] at h ⊢
    rcases ih (i + 1) _ h with h1 | h1
    · rcases reconcileAdapter_announce env i ma s L c h1 with h2 | ⟨⟨e, he⟩, hm⟩
      · exact Or.inl h2
      · exact Or.inr ⟨⟨e, reconcileFrom_trace_mem env tl (i + 1) _ _ he⟩,
          reconcileFrom_trace_mem env tl (i + 1) _ _ hm⟩
    · exact Or.inr h1

theorem reconcileAdapter_announced (env : TickEnv) (i : Nat) (ma : Adapter) (s : IterState) :
    ∃ l, announced (reconcileAdapter env i ma s).trace = announced s.trace ++ l
      ∧ l.Nodup ∧ ∀ c ∈ l, s.allocated ≤ c ∧ c < (reconcileAdapter env i ma s).allocated := by
  unfold reconcileAdapter
  cases hf : s.localMeshAdapters.get ma.Location with
  | none =>
    cases hc : (env.CreateClient i).client <;> cases he : (env.CreateClient i).err <;>
      cases hp : env.MeshNameErr i <;>
      simp [hf, hc, he, hp, announced_append, announced]
  | some c' =>
    cases c' <;> cases hp : env.MeshNameErr i <;>
      simp [hf, hp, announced_append, announced]

theorem reconcileFrom_announced (env : TickEnv) (rest : List Adapter) :
    ∀ (i : Nat) (s : IterState),
      ∃ l, announced (reconcileFrom env i rest s).trace = announced s.trace ++ l
        ∧ l.Nodup ∧ ∀ c ∈ l, s.allocated ≤ c ∧ c < (reconcileFrom env i rest s).allocated := by
  induction rest with
  | nil => intro i s; exact ⟨[], by simp [reconcileFrom]⟩
  | cons ma tl ih =>
    intro i s
    simp only [reconcileFrom]
    obtain ⟨l1, h1, hn1, hb1⟩ := reconcileAdapter_announced env i ma s
    obtain ⟨l2, h2, hn2, hb2⟩ := ih (i + 1) (reconcileAdapter env i ma s)
    refine ⟨l1 ++ l2, ?_, ?_, ?_⟩
    · rw [h2, h1, List.append_assoc]
    · refine List.Nodup.append hn1 hn2 ?_
      intro c hc1 hc2
      exact absurd (hb1 c hc1).2 (Nat.not_lt.mpr (hb2 c hc2).1)
    · intro c hc
      rcases List.mem_append.mp hc with hc | hc
      · exact ⟨(hb1 c hc).1,
          Nat.lt_of_lt_of_le (hb1 c hc).2 (reconcileFrom_allocated_le env tl (i + 1) _)⟩
      · exact ⟨Nat.le_trans (reconcileAdapter_allocated_le env i ma s) (hb2 c hc).1, (hb2 c hc).2⟩

theorem drainRegistry_announced (st : LoopState) : announced (drainRegistry st).2 = [] := by
  have h : ∀ r : Registry, announced (r.map (fun e => Action.close e.2)) = [] := by
    intro r
    induction r with
    | nil => rfl
    | cons e rest ih => simpa [announced] using ih
  simp [drainRegistry, announced_append, announced, h]

theorem tick_announced (prefObj : Preference) (env : TickEnv) (st : LoopState) :
    (announced (tick prefObj env st).2).Nodup
      ∧ (∀ c ∈ announced (tick prefObj env st).2,
          st.allocated ≤ c ∧ c < (tick prefObj env st).1.allocated)
      ∧ st.allocated ≤ (tick prefObj env st).1.allocated := by
  by_cases hdrain : noValidK8SConfig prefObj = true ∨ configuredAdapters prefObj = []
  · rw [tick_drain prefObj env st hdrain, drainRegistry_announced]
    simp [drainRegistry]
  · have hk : noValidK8SConfig prefObj = false := by
      cases h : noValidK8SConfig prefObj
      · rfl
      · exact absurd (Or.inl h) hdrain
    have hne : configuredAdapters prefObj ≠ [] := fun h => hdrain (Or.inr h)
    rw [tick_reconcile prefObj env st hk hne]
    obtain ⟨l, hl, hn, hb⟩ := reconcileFrom_announced env (configuredAdapters prefObj) 0
      { localMeshAdapters := st.localMeshAdapters, allocated := st.allocated,
        trace := [Action.lock] }
    have hal : announced ((reconcileFrom env 0 (configuredAdapters prefObj)
        { localMeshAdapters := st.localMeshAdapters, allocated := st.allocated,
          trace := [Action.lock] }).trace ++ [Action.unlock]) = l := by
      rw [announced_append, hl]
      simp [announced]
    rw [hal]
    exact ⟨hn, hb, reconcileFrom_allocated_le env (configuredAdapters prefObj) 0
      { localMeshAdapters := st.localMeshAdapters, allocated := st.allocated,
        trace := [Action.lock] }⟩

/-- C4: in every tick, a location that has a registry entry at the start and
whose `MeshName` probe is made and never fails gets nothing sent on
`newAdaptersChan` and keeps its entry; and a client sent on `newAdaptersChan`
was returned by `CreateClient` in that tick, passed its probe in that tick, and
is sent exactly once. -/
theorem announce_only_created_and_healthy (prefObj : Preference) (env : TickEnv)
    (st : LoopState) :
    (∀ (L : String) (p : MeshClient), st.localMeshAdapters.get L = some p →
        (∃ c, Action.meshName L c false ∈ (tick prefObj env st).2) →
        (∀ c, Action.meshName L c true ∉ (tick prefObj env st).2) →
        (∀ c, Action.announce L c ∉ (tick prefObj env st).2)
          ∧ (tick prefObj env st).1.localMeshAdapters.get L = some p)
      ∧ (∀ (L : String) (c : ClientId), Action.announce L c ∈ (tick prefObj env st).2 →
          (∃ e, Action.createClient L (some c) e ∈ (tick prefObj env st).2)
            ∧ Action.meshName L c false ∈ (tick prefObj env st).2
            ∧ (announced (tick prefObj env st).2).count c = 1) := by
  by_cases hdrain : noValidK8SConfig prefObj = true ∨ configuredAdapters prefObj = []
  · constructor
    · intro L p _ hprobe
      obtain ⟨c, hc⟩ := hprobe
      rw [tick_drain prefObj env st hdrain] at hc
      exact absurd hc (drainRegistry_no_probe st L c false)
    · intro L c hc
      have : c ∈ announced (tick prefObj env st).2 := (mem_announced _ c).mpr ⟨L, hc⟩
      rw [tick_drain prefObj env st hdrain, drainRegistry_announced] at this
      simp at this
  · have hk : noValidK8SConfig prefObj = false := by
      cases h : noValidK8SConfig prefObj
      · rfl
      · exact absurd (Or.inl h) hdrain
    have hne : configuredAdapters prefObj ≠ [] := fun h => hdrain (Or.inr h)
    have hcount := tick_announced prefObj env st
    rw [tick_reconcile prefObj env st hk hne] at hcount ⊢
    simp only [List.mem_append, List.mem_singleton, reduceCtorEq, or_false]
    constructor
    · intro L p hget _ hok
      have h := reconcileFrom_registered_healthy env L p (configuredAdapters prefObj) 0
        { localMeshAdapters := st.localMeshAdapters, allocated := st.allocated,
          trace := [Action.lock] } hget hok
      refine ⟨?_, h.1⟩
      intro c hc
      have := h.2 c hc
      simp at this
    · intro L c hc
      rcases reconcileFrom_announce env L c (configuredAdapters prefObj) 0 _ hc with h1 | h1
      · simp at h1
      · refine ⟨h1.1, h1.2, ?_⟩
        refine List.count_eq_one_of_mem hcount.1 ?_
        exact (mem_announced _ c).mpr ⟨L, List.mem_append_left _ hc⟩

/-- C4, at a concrete tick: "a" is registered with client 0 and healthy, "b" is
new; client 0 is not sent again, client 1 is sent once. -/
theorem announce_only_created_and_healthy_witness :
    (∀ c, Action.announce "a" c ∉ (tick (inClusterPrefs ["a", "b"]) healthyEnv registeredA).2)
      ∧ (tick (inClusterPrefs ["a", "b"]) healthyEnv registeredA).1.localMeshAdapters.get "a"
          = some (some 0)
      ∧ (announced (tick (inClusterPrefs ["a", "b"]) healthyEnv registeredA).2).count 1 = 1 :=
  ⟨((announce_only_created_and_healthy (inClusterPrefs ["a", "b"]) healthyEnv registeredA).1
      "a" (some 0) (by decide) ⟨0, by decide⟩ (by
        intro c
        match c with
        | 0 => decide
        | c + 1 => simp [tick, inClusterPrefs, noValidK8SConfig, registeredA, reconcileFrom,
            reconcileAdapter, Registry.get, healthyEnv, Registry.set])).1,
    ((announce_only_created_and_healthy (inClusterPrefs ["a", "b"]) healthyEnv registeredA).1
      "a" (some 0) (by decide) ⟨0, by decide⟩ (by
        intro c
        match c with
        | 0 => decide
        | c + 1 => simp [tick, inClusterPrefs, noValidK8SConfig, registeredA, reconcileFrom,
            reconcileAdapter, Registry.get, healthyEnv, Registry.set])).2,
    ((announce_only_created_and_healthy (inClusterPrefs ["a", "b"]) healthyEnv registeredA).2
      "b" 1 (by decide)).2.2⟩

/-! ## C5: a tick without configuration -/

theorem noValidK8SConfig_iff (prefObj : Preference) :
    noValidK8SConfig prefObj = true ↔
      (prefObj.K8SConfig = none ∨
        ∃ k, prefObj.K8SConfig = some k ∧ k.InClusterConfig = false
          ∧ (k.Config = none ∨ k.Config = some [])) := by
  unfold noValidK8SConfig
  cases hk : prefObj.K8SConfig with
  | none => simp
  | some k =>
    cases hc : k.Config with
    | none => simp [hc]
    | some bytes => cases bytes <;> simp [hc]

theorem configuredAdapters_eq_nil_iff (prefObj : Preference) :
    configuredAdapters prefObj = [] ↔
      (prefObj.MeshAdapters = none ∨ prefObj.MeshAdapters = some []) := by
  unfold configuredAdapters
  cases prefObj.MeshAdapters <;> simp

/-- C5: a tick whose cluster configuration is absent or invalid (`K8SConfig`
nil, or `InClusterConfig` false with `Config` nil or empty), or whose adapter
list is nil or empty, calls `Close` on every client of the registry, leaves the
registry empty, calls `CreateClient` for no location and sends nothing on
`newAdaptersChan`; the `STOP` loop is not left by that pass, and its next pass
runs. -/
theorem tick_without_configuration_drains (prefObj : Preference) (env : TickEnv)
    (st : LoopState)
    (hcfg : (prefObj.K8SConfig = none ∨
        ∃ k, prefObj.K8SConfig = some k ∧ k.InClusterConfig = false
          ∧ (k.Config = none ∨ k.Config = some []))
      ∨ (prefObj.MeshAdapters = none ∨ prefObj.MeshAdapters = some [])) :
    (∀ e ∈ st.localMeshAdapters, Action.close e.2 ∈ (tick prefObj env st).2)
      ∧ (tick prefObj env st).1.localMeshAdapters = []
      ∧ (∀ L c e, Action.createClient L c e ∉ (tick prefObj env st).2)
      ∧ (∀ L c, Action.announce L c ∉ (tick prefObj env st).2)
      ∧ (∀ p : Pipeline, p.loop = st → p.panicked = false → p.stopped = false →
          (exec p (Step.iterate false prefObj env)).loop = (tick prefObj env st).1
            ∧ (exec p (Step.iterate false prefObj env)).stopped = false
            ∧ (exec p (Step.iterate false prefObj env)).panicked = false
            ∧ (exec p (Step.iterate false prefObj env)).listeners = p.listeners
            ∧ ∀ (prefObj2 : Preference) (env2 : TickEnv),
                (exec (exec p (Step.iterate false prefObj env))
                    (Step.iterate false prefObj2 env2)).loop
                  = (tick prefObj2 env2 (tick prefObj env st).1).1) := by
  have hdrain : noValidK8SConfig prefObj = true ∨ configuredAdapters prefObj = [] := by
    rcases hcfg with h | h
    · exact Or.inl ((noValidK8SConfig_iff prefObj).mpr h)
    · exact Or.inr ((configuredAdapters_eq_nil_iff prefObj).mpr h)
  have htick := tick_drain prefObj env st hdrain
  have hann := drainRegistry_announced st
  rw [htick]
  refine ⟨?_, rfl, ?_, ?_, ?_⟩
  · intro e he
    simp only [drainRegistry, List.mem_append, List.mem_map]
    exact Or.inl (Or.inr ⟨e, he, rfl⟩)
  · intro L c e
    simp [drainRegistry]
  · intro L c
    simp [drainRegistry]
  · intro p hp hpan hstop
    subst hp
    simp [exec, iterate, hpan, hstop, htick, hann]

/-- C5, at a concrete tick: `K8SConfig` is nil while client 0 is registered. -/
theorem tick_without_configuration_drains_witness :
    Action.close (some 0) ∈
        (tick { K8SConfig := none, MeshAdapters := some [Adapter.mk "a"] } healthyEnv registeredA).2
      ∧ (tick { K8SConfig := none, MeshAdapters := some [Adapter.mk "a"] } healthyEnv
          registeredA).1.localMeshAdapters = [] :=
  ⟨(tick_without_configuration_drains
      { K8SConfig := none, MeshAdapters := some [Adapter.mk "a"] } healthyEnv registeredA
      (Or.inl (Or.inl rfl))).1 ("a", some 0) (by decide),
    (tick_without_configuration_drains
      { K8SConfig := none, MeshAdapters := some [Adapter.mk "a"] } healthyEnv registeredA
      (Or.inl (Or.inl rfl))).2.1⟩

/-! ## C10: what happens while the registry lock is held -/

theorem reconcileAdapter_count_lock (env : TickEnv) (i : Nat) (ma : Adapter) (s : IterState) :
    (reconcileAdapter env i ma s).trace.count Action.lock = s.trace.count Action.lock
      ∧ (reconcileAdapter env i ma s).trace.count Action.unlock
          = s.trace.count Action.unlock := by
  unfold reconcileAdapter
  cases hf : s.localMeshAdapters.get ma.Location with
  | none =>
    cases hc : (env.CreateClient i).client <;> cases he : (env.CreateClient i).err <;>
      cases hp : env.MeshNameErr i <;>
      simp [hf, hc, he, hp, List.count_append, List.count_cons]
  | some c' =>
    cases c' <;> cases hp : env.MeshNameErr i <;>
      simp [hf, hp, List.count_append, List.count_cons]

theorem reconcileFrom_count_lock (env : TickEnv) (rest : List Adapter) :
    ∀ (i : Nat) (s : IterState),
      (reconcileFrom env i rest s).trace.count Action.lock = s.trace.count Action.lock
        ∧ (reconcileFrom env i rest s).trace.count Action.unlock
            = s.trace.count Action.unlock := by
  induction rest with
  | nil => intro i s; exact ⟨rfl, rfl⟩
  | cons ma tl ih =>
    intro i s
    simp only [reconcileFrom]
    have h1 := reconcileAdapter_count_lock env i ma s
    have h2 := ih (i + 1) (reconcileAdapter env i ma s)
    exact ⟨h2.1.trans h1.1, h2.2.trans h1.2⟩

/-- C10 (as stated) fails: in a tick that connects one new adapter, `CreateClient`,
the `MeshName` probe and the send on `newAdaptersChan` all happen between `Lock`
and `Unlock`; and the drain of a non-empty registry calls `Close` under the lock. -/
theorem tick_holds_lock_across_network_calls :
    (tick (inClusterPrefs ["a"]) healthyEnv { localMeshAdapters := [], allocated := 0 }).2
        = [Action.lock, Action.mapRead "a", Action.createClient "a" (some 0) false,
            Action.mapInsert "a" (some 0), Action.meshName "a" 0 false,
            Action.announce "a" 0, Action.unlock]
      ∧ lockOnlyAcrossMapOps false
          (tick (inClusterPrefs ["a"]) healthyEnv { localMeshAdapters := [], allocated := 0 }).2
          = false
      ∧ (tick { K8SConfig := none, MeshAdapters := none } healthyEnv registeredA).2
          = [Action.lock, Action.close (some 0), Action.mapReset, Action.unlock]
      ∧ lockOnlyAcrossMapOps false
          (tick { K8SConfig := none, MeshAdapters := none } healthyEnv registeredA).2 = false := by
  decide

/-- C10 (amended): every tick takes the registry lock once, as its first
operation, and releases it once, as its last: all its other operations, the map
accesses and also every `CreateClient`, `MeshName`, `Close` and send on
`newAdaptersChan`, happen between that `Lock` and that `Unlock`. -/
theorem tick_runs_under_one_lock (prefObj : Preference) (env : TickEnv) (st : LoopState) :
    ∃ body, (tick prefObj env st).2 = Action.lock :: body ++ [Action.unlock]
      ∧ Action.lock ∉ body ∧ Action.unlock ∉ body := by
  by_cases hdrain : noValidK8SConfig prefObj = true ∨ configuredAdapters prefObj = []
  · rw [tick_drain prefObj env st hdrain]
    refine ⟨st.localMeshAdapters.map (fun e => Action.close e.2) ++ [Action.mapReset], ?_, ?_, ?_⟩
    · simp [drainRegistry]
    · simp
    · simp
  · have hk : noValidK8SConfig prefObj = false := by
      cases h : noValidK8SConfig prefObj
      · rfl
      · exact absurd (Or.inl h) hdrain
    have hne : configuredAdapters prefObj ≠ [] := fun h => hdrain (Or.inr h)
    rw [tick_reconcile prefObj env st hk hne]
    obtain ⟨body, hbody⟩ := reconcileFrom_trace_extends env (configuredAdapters prefObj) 0
      { localMeshAdapters := st.localMeshAdapters, allocated := st.allocated,
        trace := [Action.lock] }
    have hcount := reconcileFrom_count_lock env (configuredAdapters prefObj) 0
      { localMeshAdapters := st.localMeshAdapters, allocated := st.allocated,
        trace := [Action.lock] }
    rw [← hbody] at hcount ⊢
    simp only [List.count_append, List.count_cons, List.count_nil, beq_self_eq_true,
      if_true] at hcount
    refine ⟨body, by simp, ?_, ?_⟩
    · have h := hcount.1
      have h0 : List.count Action.lock body = 0 := by omega
      exact List.count_eq_zero.mp h0
    · have h := hcount.2
      have h0 : List.count Action.unlock body = 0 := by
        simp at h
        exact h
      exact List.count_eq_zero.mp h0

/-! ## C6, C8: the output relay -/

theorem writes_append (a b : List TransportCall) : writes (a ++ b) = writes a ++ writes b := by
  induction a with
  | nil => rfl
  | cons x rest ih => cases x <;> simp [writes, ih]

theorem relayFrom_eq (writeErr : Nat → Bool) (payloads : List Bytes) :
    ∀ (i : Nat) (calls : List TransportCall),
      relayFrom true writeErr i payloads calls =
        calls ++ payloads.flatMap
          (fun data => [TransportCall.write (frame data), TransportCall.flush]) := by
  induction payloads with
  | nil => intro i calls; simp [relayFrom]
  | cons data rest ih =>
    intro i calls
    simp [relayFrom, ih, List.append_assoc]

theorem relayFrom_env_irrelevant (flusher : Bool) (writeErr writeErr' : Nat → Bool)
    (payloads : List Bytes) :
    ∀ (i j : Nat) (calls : List TransportCall),
      relayFrom flusher writeErr i payloads calls
        = relayFrom flusher writeErr' j payloads calls := by
  induction payloads with
  | nil => intro i j calls; rfl
  | cons data rest ih =>
    intro i j calls
    simp only [relayFrom]
    exact ih (i + 1) (j + 1) _

theorem relayFrom_writes (flusher : Bool) (writeErr : Nat → Bool) (payloads : List Bytes) :
    ∀ (i : Nat) (calls : List TransportCall),
      writes (relayFrom flusher writeErr i payloads calls)
        = writes calls ++ payloads.map frame := by
  induction payloads with
  | nil => intro i calls; simp [relayFrom]
  | cons data rest ih =>
    intro i calls
    cases flusher <;> simp [relayFrom, ih, writes_append, writes]

/-- C6: for payloads p1..pn taken from `respChan`, the relay calls `Write` with
the record "data: " ++ pi ++ "\n\n" for each payload, in buffer order, each
`Write` followed by one `Flush`: the bytes written are the concatenation of the
records, none dropped, duplicated or reordered, and `Flush` is called n times. -/
theorem relay_writes_framed_records_in_order (writeErr : Nat → Bool) (payloads : List Bytes) :
    relay true writeErr payloads
        = payloads.flatMap (fun data =>
            [TransportCall.write (asciiBytes "data: " ++ data ++ asciiBytes "\n\n"),
              TransportCall.flush])
      ∧ (writes (relay true writeErr payloads)).flatten
          = (payloads.map (fun data => asciiBytes "data: " ++ data ++ asciiBytes "\n\n")).flatten
      ∧ (relay true writeErr payloads).count TransportCall.flush = payloads.length := by
  have h1 : relay true writeErr payloads
      = payloads.flatMap (fun data =>
          [TransportCall.write (asciiBytes "data: " ++ data ++ asciiBytes "\n\n"),
            TransportCall.flush]) := by
    unfold relay
    rw [relayFrom_eq]
    simp [frame]
  have h2 : writes (relay true writeErr payloads)
      = payloads.map (fun data => asciiBytes "data: " ++ data ++ asciiBytes "\n\n") := by
    unfold relay
    rw [relayFrom_writes]
    simp [writes, frame]
  refine ⟨h1, by rw [h2], ?_⟩
  rw [h1]
  clear h1 h2
  induction payloads with
  | nil => rfl
  | cons data rest ih => simpa [List.flatMap_cons, List.count_cons] using ih

/-- C8 (as stated) fails: the write of the first record returns an error and the
relay still writes and flushes the record of the second payload. -/
theorem relay_writes_after_failed_write :
    (fun i : Nat => decide (i = 0)) 0 = true
      ∧ relay true (fun i : Nat => decide (i = 0)) [[1], [2]]
          = [TransportCall.write (frame [1]), TransportCall.flush,
              TransportCall.write (frame [2]), TransportCall.flush]
      ∧ TransportCall.write (frame [2]) ∈ relay true (fun i : Nat => decide (i = 0)) [[1], [2]] := by
  decide

/-- C8 (amended): the relay discards the result of every write: the calls it
makes are the same whatever the writes return, and it writes one record for
every payload, also after a write that returned an error. -/
theorem relay_ignores_write_errors (flusher : Bool) (writeErr writeErr' : Nat → Bool)
    (payloads : List Bytes) :
    relay flusher writeErr payloads = relay flusher writeErr' payloads
      ∧ writes (relay flusher writeErr payloads) = payloads.map frame := by
  constructor
  · exact relayFrom_env_irrelevant flusher writeErr writeErr' payloads 0 0 []
  · unfold relay
    rw [relayFrom_writes]
    simp [writes]

/-! ## C7: the listener -/

theorem encodingsBeforeStop_nil {Ev : Type} (marshal : Ev → Option Bytes) :
    encodingsBeforeStop marshal ([] : List (RecvResult Ev)) = [] := rfl

theorem encodingsBeforeStop_cons_push {Ev : Type} (marshal : Ev → Option Bytes)
    (r : RecvResult Ev) (rest : List (RecvResult Ev)) (data : Bytes)
    (h : onRecv marshal r = ListenerMove.push data) :
    encodingsBeforeStop marshal (r :: rest) = data :: encodingsBeforeStop marshal rest
      ∧ r.terminating marshal = false := by
  cases r with
  | event e =>
    cases hm : marshal e with
    | none => simp [onRecv, hm] at h
    | some d =>
      simp only [onRecv, hm, ListenerMove.push.injEq] at h
      subst h
      simp [encodingsBeforeStop, RecvResult.terminating, RecvResult.encoding, hm,
        List.takeWhile_cons, List.filterMap_cons]
  | eof => simp [onRecv] at h
  | error => simp [onRecv] at h

theorem encodingsBeforeStop_cons_finish {Ev : Type} (marshal : Ev → Option Bytes)
    (r : RecvResult Ev) (rest : List (RecvResult Ev))
    (h : onRecv marshal r = ListenerMove.finish) :
    encodingsBeforeStop marshal (r :: rest) = [] ∧ r.terminating marshal = true := by
  cases r with
  | event e =>
    cases hm : marshal e with
    | none =>
      simp [encodingsBeforeStop, RecvResult.terminating, hm, List.takeWhile_cons]
    | some d => simp [onRecv, hm] at h
  | eof => simp [encodingsBeforeStop, RecvResult.terminating, List.takeWhile_cons]
  | error => simp [encodingsBeforeStop, RecvResult.terminating, List.takeWhile_cons]

theorem listenLoop_all_sent {Ev : Type} (marshal : Ev → Option Bytes) (send : Nat → SendResult)
    (stream : List (RecvResult Ev)) :
    ∀ (k : Nat) (pushed : List Bytes),
      (∀ j, j < (encodingsBeforeStop marshal stream).length → send (k + j) = SendResult.sent) →
      (listenLoop marshal send k stream pushed).pushed
          = pushed ++ encodingsBeforeStop marshal stream
        ∧ ((listenLoop marshal send k stream pushed).returned = true ↔
            ∃ r ∈ stream, r.terminating marshal = true)
        ∧ (listenLoop marshal send k stream pushed).panicked = false := by
  induction stream with
  | nil => intro k pushed _; simp [listenLoop, encodingsBeforeStop_nil]
  | cons r rest ih =>
    intro k pushed hsend
    cases hmove : onRecv marshal r with
    | push data =>
      obtain ⟨hE, hterm⟩ := encodingsBeforeStop_cons_push marshal r rest data hmove
      rw [hE] at hsend
      have h0 : send k = SendResult.sent := by
        have := hsend 0 (by simp)
        simpa using this
      have hrest := ih (k + 1) (pushed ++ [data]) (by
        intro j hj
        have := hsend (j + 1) (by simpa using hj)
        rw [← this]
        congr 1
        omega)
      simp only [listenLoop, hmove, h0, hE]
      refine ⟨by rw [hrest.1]; simp, ?_, hrest.2.2⟩
      rw [hrest.2.1]
      simp [hterm]
    | finish =>
      obtain ⟨hE, hterm⟩ := encodingsBeforeStop_cons_finish marshal r rest hmove
      simp only [listenLoop, hmove, hE, List.append_nil, true_and, and_true]
      simp [hterm]

theorem listenLoop_open {Ev : Type} (marshal : Ev → Option Bytes) (send : Nat → SendResult)
    (hopen : ∀ k, send k ≠ SendResult.closed) (stream : List (RecvResult Ev)) :
    ∀ (k : Nat) (pushed : List Bytes),
      (listenLoop marshal send k stream pushed).panicked = false
        ∧ ∃ n, (listenLoop marshal send k stream pushed).pushed
            = pushed ++ (encodingsBeforeStop marshal stream).take n := by
  induction stream with
  | nil => intro k pushed; exact ⟨rfl, 0, by simp [listenLoop]⟩
  | cons r rest ih =>
    intro k pushed
    cases hmove : onRecv marshal r with
    | push data =>
      obtain ⟨hE, _⟩ := encodingsBeforeStop_cons_push marshal r rest data hmove
      cases hs : send k with
      | sent =>
        obtain ⟨hp, n, hn⟩ := ih (k + 1) (pushed ++ [data])
        simp only [listenLoop, hmove, hs, hE]
        exact ⟨hp, n + 1, by rw [hn]; simp⟩
      | blocked =>
        exact ⟨by simp [listenLoop, hmove, hs], 0, by simp [listenLoop, hmove, hs]⟩
      | closed => exact absurd hs (hopen k)
    | finish =>
      exact ⟨by simp [listenLoop, hmove], 0, by simp [listenLoop, hmove]⟩

theorem listenLoop_blocked {Ev : Type} (marshal : Ev → Option Bytes) (send : Nat → SendResult)
    (stream : List (RecvResult Ev)) :
    ∀ (k : Nat) (pushed : List Bytes) (j : Nat),
      j < (encodingsBeforeStop marshal stream).length →
      send (k + j) = SendResult.blocked →
      (∀ i, i < j → send (k + i) = SendResult.sent) →
      (listenLoop marshal send k stream pushed).pushed
          = pushed ++ (encodingsBeforeStop marshal stream).take j
        ∧ (listenLoop marshal send k stream pushed).returned = false
        ∧ (listenLoop marshal send k stream pushed).panicked = false := by
  induction stream with
  | nil => intro k pushed j hj; simp [encodingsBeforeStop_nil] at hj
  | cons r rest ih =>
    intro k pushed j hj hblocked hsent
    cases hmove : onRecv marshal r with
    | push data =>
      obtain ⟨hE, _⟩ := encodingsBeforeStop_cons_push marshal r rest data hmove
      rw [hE] at hj
      cases j with
      | zero =>
        have h0 : send k = SendResult.blocked := by simpa using hblocked
        simp [listenLoop, hmove, h0]
      | succ j =>
        have h0 : send k = SendResult.sent := by
          have := hsent 0 (by omega)
          simpa using this
        have hrest := ih (k + 1) (pushed ++ [data]) j (by simpa using hj)
          (by
            rw [← hblocked]
            congr 1
            omega)
          (by
            intro i hi
            have := hsent (i + 1) (by omega)
            rw [← this]
            congr 1
            omega)
        simp only [listenLoop, hmove, h0, hE]
        exact ⟨by rw [hrest.1]; simp, hrest.2.1, hrest.2.2⟩
    | finish =>
      obtain ⟨hE, _⟩ := encodingsBeforeStop_cons_finish marshal r rest hmove
      simp [hE] at hj

/-- When every send completes, `listenForAdapterEvents` pushes the encodings of
the events received before the first result that ends it and returns as soon as
such a result arrives. -/
theorem listener_pushes_events_until_first_stop {Ev : Type} (marshal : Ev → Option Bytes)
    (send : Nat → SendResult) (stream : List (RecvResult Ev))
    (hsend : ∀ k, send k = SendResult.sent) :
    (listenForAdapterEvents marshal send (some stream)).pushed
        = (stream.takeWhile (fun r => !r.terminating marshal)).filterMap
            (RecvResult.encoding marshal)
      ∧ ((listenForAdapterEvents marshal send (some stream)).returned = true ↔
          ∃ r ∈ stream, r.terminating marshal = true) := by
  have h := listenLoop_all_sent marshal send stream 0 [] (fun j _ => hsend (0 + j))
  simp only [List.nil_append] at h
  exact ⟨h.1, h.2.1⟩

/-- C7 (as stated) fails: of the events 1 and 2 received before `io.EOF`, the
listener pushes only the first and does not return, both when its second send
stays blocked on the full buffer and when `respChan` is closed before its second
send, which then panics; the second case is also the run in which the
disconnect signal comes between the two sends. -/
theorem listener_stops_before_pushing_all_events :
    encodingsBeforeStop marshalNat
        [RecvResult.event 1, RecvResult.event 2, RecvResult.eof] = [[1], [2]]
      ∧ listenForAdapterEvents marshalNat blockedAtSecondSend
          (some [RecvResult.event 1, RecvResult.event 2, RecvResult.eof])
          = { pushed := [[1]], returned := false, panicked := false }
      ∧ listenForAdapterEvents marshalNat closedAfterFirstSend
          (some [RecvResult.event 1, RecvResult.event 2, RecvResult.eof])
          = { pushed := [[1]], returned := false, panicked := true }
      ∧ (run (Pipeline.init true)
          [Step.iterate false (inClusterPrefs ["a"]) healthyEnv,
            Step.listener 0 (onRecv marshalNat (RecvResult.event 1)),
            Step.iterate true (inClusterPrefs ["a"]) healthyEnv,
            Step.listener 0 (onRecv marshalNat (RecvResult.event 2)),
            Step.listener 0 (onRecv marshalNat RecvResult.eof)]).respChan = [[1]]
      ∧ (run (Pipeline.init true)
          [Step.iterate false (inClusterPrefs ["a"]) healthyEnv,
            Step.listener 0 (onRecv marshalNat (RecvResult.event 1)),
            Step.iterate true (inClusterPrefs ["a"]) healthyEnv,
            Step.listener 0 (onRecv marshalNat (RecvResult.event 2)),
            Step.listener 0 (onRecv marshalNat RecvResult.eof)]).panicked = true
      ∧ (run (Pipeline.init true)
          [Step.iterate false (inClusterPrefs ["a"]) healthyEnv,
            Step.listener 0 (onRecv marshalNat (RecvResult.event 1)),
            Step.iterate true (inClusterPrefs ["a"]) healthyEnv,
            Step.listener 0 (onRecv marshalNat (RecvResult.event 2)),
            Step.listener 0 (onRecv marshalNat RecvResult.eof)]).listeners = [0] := by
  decide

/-- C7 (amended): while `respChan` is open, `listenForAdapterEvents` pushes
encodings of the events received before the first terminating result (`io.EOF`,
another `Recv` error, or an event that cannot be serialized), in the order
received and nothing else, and does not panic; when every send completes it
pushes all of them and returns exactly when such a result arrives; when a send
stays blocked on the full buffer it has pushed exactly the encodings before that
one and has not returned; and when `StreamEvents` fails it pushes nothing and
returns. -/
theorem listener_pushes_events_while_respChan_open {Ev : Type} (marshal : Ev → Option Bytes)
    (send : Nat → SendResult) (stream : List (RecvResult Ev))
    (hopen : ∀ k, send k ≠ SendResult.closed) :
    (listenForAdapterEvents marshal send (some stream)).panicked = false
      ∧ (∃ n, (listenForAdapterEvents marshal send (some stream)).pushed
          = ((stream.takeWhile (fun r => !r.terminating marshal)).filterMap
              (RecvResult.encoding marshal)).take n)
      ∧ ((∀ k, k < (encodingsBeforeStop marshal stream).length → send k = SendResult.sent) →
          (listenForAdapterEvents marshal send (some stream)).pushed
              = (stream.takeWhile (fun r => !r.terminating marshal)).filterMap
                  (RecvResult.encoding marshal)
            ∧ ((listenForAdapterEvents marshal send (some stream)).returned = true ↔
                ∃ r ∈ stream, r.terminating marshal = true))
      ∧ (∀ j, j < (encodingsBeforeStop marshal stream).length →
          send j = SendResult.blocked → (∀ i, i < j → send i = SendResult.sent) →
          (listenForAdapterEvents marshal send (some stream)).pushed
              = (encodingsBeforeStop marshal stream).take j
            ∧ (listenForAdapterEvents marshal send (some stream)).returned = false)
      ∧ listenForAdapterEvents marshal send (none : Option (List (RecvResult Ev)))
          = { pushed := [], returned := true, panicked := false } := by
  have hop := listenLoop_open marshal send hopen stream 0 []
  refine ⟨hop.1, ?_, ?_, ?_, rfl⟩
  · obtain ⟨n, hn⟩ := hop.2
    exact ⟨n, by simpa [encodingsBeforeStop] using hn⟩
  · intro hsend
    have h := listenLoop_all_sent marshal send stream 0 [] (by
      intro j hj
      rw [Nat.zero_add]
      exact hsend j hj)
    simp only [List.nil_append] at h
    exact ⟨h.1, h.2.1⟩
  · intro j hj hblocked hsent
    have h := listenLoop_blocked marshal send stream 0 [] j hj
      (by rw [Nat.zero_add]; exact hblocked)
      (by
        intro i hi
        rw [Nat.zero_add]
        exact hsent i hi)
    simp only [List.nil_append] at h
    exact ⟨h.1, h.2.1⟩

/-- C7 (amended), at a concrete run: `respChan` stays open and the second send
stays blocked; the first of two events has been pushed and the listener has not
returned. -/
theorem listener_pushes_events_while_respChan_open_witness :
    (listenForAdapterEvents marshalNat blockedAtSecondSend
        (some [RecvResult.event 1, RecvResult.event 2, RecvResult.eof])).panicked = false
      ∧ (listenForAdapterEvents marshalNat blockedAtSecondSend
          (some [RecvResult.event 1, RecvResult.event 2, RecvResult.eof])).pushed
          = (encodingsBeforeStop marshalNat
              [RecvResult.event 1, RecvResult.event 2, RecvResult.eof]).take 1 :=
  ⟨(listener_pushes_events_while_respChan_open marshalNat blockedAtSecondSend
      [RecvResult.event 1, RecvResult.event 2, RecvResult.eof]
      (by
        intro k
        by_cases h : k = 1 <;> simp [blockedAtSecondSend, h])).1,
    ((listener_pushes_events_while_respChan_open marshalNat blockedAtSecondSend
      [RecvResult.event 1, RecvResult.event 2, RecvResult.eof]
      (by
        intro k
        by_cases h : k = 1 <;> simp [blockedAtSecondSend, h])).2.2.2.1
      1 (by decide) (by decide) (by
        intro i hi
        have h0 : i = 0 := by omega
        subst h0
        decide)).1⟩

/-! ## C2: who closes an announced client -/

theorem announcedOps_append (a b : List Op) :
    announcedOps (a ++ b) = announcedOps a ++ announcedOps b := by
  induction a with
  | nil => rfl
  | cons x rest ih =>
    cases x with
    | main act => cases act <;> simp [announcedOps, ih]
    | _ => simp [announcedOps, ih]

theorem announcedOps_map_main (t : List Action) :
    announcedOps (t.map Op.main) = announced t := by
  induction t with
  | nil => rfl
  | cons x rest ih => cases x <;> simp [announcedOps, announced, ih]

theorem mem_announcedOps (log : List Op) (c : ClientId) :
    c ∈ announcedOps log ↔ ∃ loc, Op.main (Action.announce loc c) ∈ log := by
  induction log with
  | nil => simp [announcedOps]
  | cons x rest ih =>
    cases x with
    | main act =>
      cases act with
      | announce l d =>
        simp only [announcedOps, List.mem_cons, ih]
        constructor
        · rintro (h | ⟨loc, h⟩)
          · exact ⟨l, Or.inl (by rw [h])⟩
          · exact ⟨loc, Or.inr h⟩
        · rintro ⟨loc, h | h⟩
          · injection h with h1
            injection h1 with _ h2
            exact Or.inl h2
          · exact Or.inr ⟨loc, h⟩
      | _ => simp [announcedOps, ih]
    | _ => simp [announcedOps, ih]

theorem listenerCloses_append (a b : List Op) :
    listenerCloses (a ++ b) = listenerCloses a ++ listenerCloses b := by
  induction a with
  | nil => rfl
  | cons x rest ih => cases x <;> simp [listenerCloses, ih]

theorem listenerCloses_map_main (t : List Action) : listenerCloses (t.map Op.main) = [] := by
  induction t with
  | nil => rfl
  | cons x rest ih => simpa [listenerCloses] using ih

theorem count_own_close (l : List (ClientId × MeshClient)) (c : ClientId)
    (h : ∀ e ∈ l, e.2 = some e.1) :
    (l.map Prod.snd).count (some c) = (l.map Prod.fst).count c := by
  induction l with
  | nil => rfl
  | cons e rest ih =>
    obtain ⟨d, t⟩ := e
    have ht : t = some d := h (d, t) (List.mem_cons_self _ _)
    have ih' := ih (fun e he => h e (List.mem_cons_of_mem _ he))
    subst ht
    by_cases hd : d = c
    · simp [List.count_cons, hd, ih']
    · simp [List.count_cons, hd, ih']

theorem count_own_pair (l : List (ClientId × MeshClient)) (c : ClientId)
    (h : ∀ e ∈ l, e.2 = some e.1) :
    l.count (c, some c) = (l.map Prod.fst).count c := by
  induction l with
  | nil => rfl
  | cons e rest ih =>
    obtain ⟨d, t⟩ := e
    have ht : t = some d := h (d, t) (List.mem_cons_self _ _)
    have ih' := ih (fun e he => h e (List.mem_cons_of_mem _ he))
    subst ht
    by_cases hd : d = c
    · simp [List.count_cons, hd, ih']
    · simp [List.count_cons, hd, ih']

theorem init_consistent (shared : Bool) : (Pipeline.init shared).Consistent :=
  { nodup := by simp [Pipeline.init, announcedOps]
    fresh := by simp [Pipeline.init, announcedOps]
    owned := by simp [Pipeline.init, announcedOps, listenerCloses]
    own := by simp [Pipeline.init, listenerCloses] }

theorem iterate_consistent (notify : Bool) (prefObj : Preference) (env : TickEnv)
    (p : Pipeline) (h : p.Consistent) : (iterate notify prefObj env p).Consistent := by
  cases notify with
  | true =>
    refine { nodup := ?_, fresh := ?_, owned := ?_, own := ?_ }
    · simpa [iterate, announcedOps_append, announcedOps] using h.nodup
    · simpa [iterate, announcedOps_append, announcedOps] using h.fresh
    · intro c
      simpa [iterate, announcedOps_append, announcedOps, listenerCloses_append, listenerCloses]
        using h.owned c
    · simpa [iterate, listenerCloses_append, listenerCloses] using h.own
  | false =>
    have ht := tick_announced prefObj env p.loop
    refine { nodup := ?_, fresh := ?_, owned := ?_, own := ?_ }
    · simp only [iterate, Bool.false_eq_true, if_false, announcedOps_append,
        announcedOps_map_main]
      refine List.Nodup.append h.nodup ht.1 ?_
      intro c hc1 hc2
      exact absurd (h.fresh c hc1) (Nat.not_lt.mpr (ht.2.1 c hc2).1)
    · simp only [iterate, Bool.false_eq_true, if_false, announcedOps_append,
        announcedOps_map_main]
      intro c hc
      rcases List.mem_append.mp hc with hc | hc
      · exact Nat.lt_of_lt_of_le (h.fresh c hc) ht.2.2
      · exact (ht.2.1 c hc).2
    · intro c
      simp only [iterate, Bool.false_eq_true, if_false, announcedOps_append,
        announcedOps_map_main, List.count_append, listenerCloses_append,
        listenerCloses_map_main, List.append_nil]
      have := h.owned c
      omega
    · simpa [iterate, listenerCloses_append, listenerCloses_map_main] using h.own

theorem listenerMove_consistent (c : ClientId) (m : ListenerMove) (p : Pipeline)
    (hc : c ∈ p.listeners) (h : p.Consistent) : (listenerMove c m p).Consistent := by
  cases m with
  | push data =>
    cases hcl : p.respChanClosed
    · refine { nodup := ?_, fresh := ?_, owned := ?_, own := ?_ }
      · simpa [listenerMove, hcl, announcedOps_append, announcedOps] using h.nodup
      · simpa [listenerMove, hcl, announcedOps_append, announcedOps] using h.fresh
      · intro d
        simpa [listenerMove, hcl, announcedOps_append, announcedOps, listenerCloses_append,
          listenerCloses] using h.owned d
      · simpa [listenerMove, hcl, listenerCloses_append, listenerCloses] using h.own
    · refine { nodup := ?_, fresh := ?_, owned := ?_, own := ?_ }
      · simpa [listenerMove, hcl, announcedOps_append, announcedOps] using h.nodup
      · simpa [listenerMove, hcl, announcedOps_append, announcedOps] using h.fresh
      · intro d
        simpa [listenerMove, hcl, announcedOps_append, announcedOps, listenerCloses_append,
          listenerCloses] using h.owned d
      · simpa [listenerMove, hcl, listenerCloses_append, listenerCloses] using h.own
  | finish =>
    refine { nodup := ?_, fresh := ?_, owned := ?_, own := ?_ }
    · simpa [listenerMove, announcedOps_append, announcedOps] using h.nodup
    · simpa [listenerMove, announcedOps_append, announcedOps] using h.fresh
    · intro d
      have hd := h.owned d
      by_cases hcd : d = c
      · subst hcd
        have hpos : 1 ≤ p.listeners.count d := List.one_le_count_iff.mpr hc
        simp only [listenerMove, announcedOps_append, announcedOps, List.append_nil,
          listenerCloses_append, listenerCloses, List.map_append, List.map_cons, List.map_nil,
          List.count_append, List.count_cons, List.count_nil, beq_self_eq_true, if_true,
          List.count_erase_self]
        omega
      · have hdc : ¬ c = d := fun heq => hcd heq.symm
        simp only [listenerMove, announcedOps_append, announcedOps, List.append_nil,
          listenerCloses_append, listenerCloses, List.map_append, List.map_cons, List.map_nil,
          List.count_append, List.count_cons, List.count_nil,
          List.count_erase_of_ne hcd]
        simp [hdc, hd]
    · intro hshared e he
      simp only [listenerMove, listenerCloses_append, listenerCloses, List.mem_append,
        List.mem_singleton] at hshared he
      rcases he with he | he
      · exact h.own hshared e he
      · simp [he, hshared]

theorem exec_consistent (p : Pipeline) (step : Step) (h : p.Consistent) :
    (exec p step).Consistent := by
  cases step with
  | iterate notify prefObj env =>
    simp only [exec]
    by_cases hcond : (p.panicked || p.stopped) = true
    · rw [if_pos hcond]
      exact h
    · rw [if_neg hcond]
      exact iterate_consistent notify prefObj env p h
  | listener c m =>
    simp only [exec]
    by_cases hcond : (p.panicked || !(p.listeners.contains c)) = true
    · rw [if_pos hcond]
      exact h
    · rw [if_neg hcond]
      have hc : c ∈ p.listeners := by
        simp at hcond
        exact hcond.2
      exact listenerMove_consistent c m p hc h

theorem run_consistent (steps : List Step) :
    ∀ p : Pipeline, p.Consistent → (run p steps).Consistent := by
  induction steps with
  | nil => intro p h; exact h
  | cons step rest ih =>
    intro p h
    exact ih (exec p step) (exec_consistent p step h)

theorem exec_sharedLoopVar (p : Pipeline) (step : Step) :
    (exec p step).sharedLoopVar = p.sharedLoopVar := by
  cases step with
  | iterate notify prefObj env =>
    simp only [exec]
    split
    · rfl
    · cases notify <;> simp [iterate]
  | listener c m =>
    simp only [exec]
    split
    · rfl
    · cases m with
      | push data => cases hcl : p.respChanClosed <;> simp [listenerMove, hcl]
      | finish => simp [listenerMove]

theorem run_sharedLoopVar (steps : List Step) :
    ∀ p : Pipeline, (run p steps).sharedLoopVar = p.sharedLoopVar := by
  induction steps with
  | nil => intro p; rfl
  | cons step rest ih =>
    intro p
    exact (ih (exec p step)).trans (exec_sharedLoopVar p step)

/-- C2 (as stated) fails: client 0 is announced by a first tick; a second tick
closes it, because its probe fails or because the configuration has gone; its
listener then ends and closes it again. No listener is left running and `Close`
has been called twice on the announced client, whichever way the goroutines
read the loop variable. -/
theorem announced_client_closed_twice :
    (run (Pipeline.init false)
        [Step.iterate false (inClusterPrefs ["a"]) healthyEnv,
          Step.iterate false (inClusterPrefs ["a"]) probeFailingEnv,
          Step.listener 0 ListenerMove.finish]).listeners = []
      ∧ Op.main (Action.announce "a" 0) ∈
          (run (Pipeline.init false)
            [Step.iterate false (inClusterPrefs ["a"]) healthyEnv,
              Step.iterate false (inClusterPrefs ["a"]) probeFailingEnv,
              Step.listener 0 ListenerMove.finish]).log
      ∧ closeCalls 0
          (run (Pipeline.init false)
            [Step.iterate false (inClusterPrefs ["a"]) healthyEnv,
              Step.iterate false (inClusterPrefs ["a"]) probeFailingEnv,
              Step.listener 0 ListenerMove.finish]).log = 2
      ∧ closeCalls 0
          (run (Pipeline.init true)
            [Step.iterate false (inClusterPrefs ["a"]) healthyEnv,
              Step.iterate false (inClusterPrefs ["a"]) probeFailingEnv,
              Step.listener 0 ListenerMove.finish]).log = 2
      ∧ (run (Pipeline.init false)
          [Step.iterate false (inClusterPrefs ["a"]) healthyEnv,
            Step.iterate false { K8SConfig := none, MeshAdapters := none } healthyEnv,
            Step.listener 0 ListenerMove.finish]).listeners = []
      ∧ closeCalls 0
          (run (Pipeline.init false)
            [Step.iterate false (inClusterPrefs ["a"]) healthyEnv,
              Step.iterate false { K8SConfig := none, MeshAdapters := none } healthyEnv,
              Step.listener 0 ListenerMove.finish]).log = 2
      ∧ closeCalls 0
          (run (Pipeline.init true)
            [Step.iterate false (inClusterPrefs ["a"]) healthyEnv,
              Step.iterate false { K8SConfig := none, MeshAdapters := none } healthyEnv,
              Step.listener 0 ListenerMove.finish]).log = 2 := by
  decide

/-- C2 (amended): in every execution from the initial state, once the listener
goroutine started for a client that was sent on `newAdaptersChan` has ended,
that goroutine has called `Close` exactly once; when every goroutine reads its
own copy of the loop variable the call was on that client, which has then been
closed at least once. The `Close` calls of the reconciliation loop come on top
of it. -/
theorem announced_client_closed_once_by_listener (shared : Bool) (steps : List Step)
    (L : String) (c : ClientId)
    (hann : Op.main (Action.announce L c) ∈ (run (Pipeline.init shared) steps).log)
    (hend : c ∉ (run (Pipeline.init shared) steps).listeners) :
    ((listenerCloses (run (Pipeline.init shared) steps).log).map Prod.fst).count c = 1
      ∧ (shared = false →
          (listenerCloses (run (Pipeline.init shared) steps).log).count (c, some c) = 1
            ∧ 1 ≤ closeCalls c (run (Pipeline.init shared) steps).log) := by
  have hinv := run_consistent steps (Pipeline.init shared) (init_consistent shared)
  have hmem : c ∈ announcedOps (run (Pipeline.init shared) steps).log :=
    (mem_announcedOps _ c).mpr ⟨L, hann⟩
  have hone : (announcedOps (run (Pipeline.init shared) steps).log).count c = 1 :=
    List.count_eq_one_of_mem hinv.nodup hmem
  have hzero : (run (Pipeline.init shared) steps).listeners.count c = 0 :=
    List.count_eq_zero_of_not_mem hend
  have hown := hinv.owned c
  have hcount :
      ((listenerCloses (run (Pipeline.init shared) steps).log).map Prod.fst).count c = 1 := by
    omega
  refine ⟨hcount, ?_⟩
  intro hshared
  have hflag : (run (Pipeline.init shared) steps).sharedLoopVar = false := by
    rw [run_sharedLoopVar]
    exact hshared
  have htargets := count_own_close _ c (hinv.own hflag)
  have hpair := count_own_pair _ c (hinv.own hflag)
  refine ⟨hpair.trans hcount, ?_⟩
  unfold closeCalls
  omega

/-- C2 (amended), at a concrete execution: client 0 is announced, stays healthy,
and its listener ends. -/
theorem announced_client_closed_once_by_listener_witness :
    ((listenerCloses (run (Pipeline.init false)
        [Step.iterate false (inClusterPrefs ["a"]) healthyEnv,
          Step.listener 0 ListenerMove.finish]).log).map Prod.fst).count 0 = 1
      ∧ 1 ≤ closeCalls 0
          (run (Pipeline.init false)
            [Step.iterate false (inClusterPrefs ["a"]) healthyEnv,
              Step.listener 0 ListenerMove.finish]).log :=
  ⟨(announced_client_closed_once_by_listener false
      [Step.iterate false (inClusterPrefs ["a"]) healthyEnv, Step.listener 0 ListenerMove.finish]
      "a" 0 (by decide) (by decide)).1,
    ((announced_client_closed_once_by_listener false
      [Step.iterate false (inClusterPrefs ["a"]) healthyEnv, Step.listener 0 ListenerMove.finish]
      "a" 0 (by decide) (by decide)).2 rfl).2⟩

/-- When the goroutines share the loop variable of line 60, the listener started
for client 0 closes client 1, received after it: client 0 has no running
listener and has not been closed. -/
theorem shared_loop_variable_closes_last_client :
    listenerCloses (run (Pipeline.init true)
        [Step.iterate false (inClusterPrefs ["a", "b"]) healthyEnv,
          Step.listener 0 ListenerMove.finish]).log = [(0, some 1)]
      ∧ (run (Pipeline.init true)
          [Step.iterate false (inClusterPrefs ["a", "b"]) healthyEnv,
            Step.listener 0 ListenerMove.finish]).listeners = [1]
      ∧ closeCalls 0 (run (Pipeline.init true)
          [Step.iterate false (inClusterPrefs ["a", "b"]) healthyEnv,
            Step.listener 0 ListenerMove.finish]).log = 0 := by
  decide

/-! ## C9: sends after the channels are closed -/

/-- C9, at the failing execution: client 0 is announced, the disconnect signal
makes the loop close `newAdaptersChan` and `respChan` and stop, and the listener
of client 0, still running, then sends on the closed `respChan`. -/
theorem listener_sends_on_closed_respChan :
    (run (Pipeline.init true)
        [Step.iterate false (inClusterPrefs ["a"]) healthyEnv,
          Step.iterate true (inClusterPrefs ["a"]) healthyEnv,
          Step.listener 0 (ListenerMove.push [123, 125])]).log
        = [Op.main Action.lock, Op.main (Action.mapRead "a"),
            Op.main (Action.createClient "a" (some 0) false),
            Op.main (Action.mapInsert "a" (some 0)), Op.main (Action.meshName "a" 0 false),
            Op.main (Action.announce "a" 0), Op.main Action.unlock,
            Op.closeNewAdaptersChan, Op.closeRespChan,
            Op.sendOnClosedRespChan 0 [123, 125]]
      ∧ (run (Pipeline.init true)
          [Step.iterate false (inClusterPrefs ["a"]) healthyEnv,
            Step.iterate true (inClusterPrefs ["a"]) healthyEnv,
            Step.listener 0 (ListenerMove.push [123, 125])]).panicked = true
      ∧ (run (Pipeline.init false)
          [Step.iterate false (inClusterPrefs ["a"]) healthyEnv,
            Step.iterate true (inClusterPrefs ["a"]) healthyEnv,
            Step.listener 0 (ListenerMove.push [123, 125])]).panicked = true := by
  decide

/-! ## C11: each configured location is reconciled on its own -/

theorem reconcileAdapter_noNil_of_created (env : TickEnv) (i : Nat) (ma : Adapter)
    (s : IterState)
    (hcc : (env.CreateClient i).err = false → (env.CreateClient i).client = true)
    (h : s.localMeshAdapters.NoNil) :
    (reconcileAdapter env i ma s).localMeshAdapters.NoNil := by
  intro loc
  by_cases hl : ma.Location = loc
  · subst hl
    have h0 := h ma.Location
    revert hcc h0
    unfold reconcileAdapter
    cases hf : s.localMeshAdapters.get ma.Location with
    | none =>
      cases hc : (env.CreateClient i).client <;> cases he : (env.CreateClient i).err <;>
        cases hp : env.MeshNameErr i <;>
        simp [hf, hc, he, hp, Registry.get_set, Registry.get_delete]
    | some c' =>
      cases c' <;> cases hp : env.MeshNameErr i <;>
        simp [hf, hp, Registry.get_set, Registry.get_delete]
  · rw [reconcileAdapter_get_other env i ma s loc hl]
    exact h loc

theorem reconcileAdapter_self_registered (env : TickEnv) (i : Nat) (ma : Adapter)
    (s : IterState)
    (hcc : (env.CreateClient i).err = false → (env.CreateClient i).client = true)
    (hnil : s.localMeshAdapters.get ma.Location ≠ some none) :
    ((reconcileAdapter env i ma s).localMeshAdapters.get ma.Location).isSome = true ↔
      (((s.localMeshAdapters.get ma.Location).isSome = true ∨ (env.CreateClient i).err = false)
        ∧ env.MeshNameErr i = false) := by
  revert hcc hnil
  unfold reconcileAdapter
  cases hf : s.localMeshAdapters.get ma.Location with
  | none =>
    cases hc : (env.CreateClient i).client <;> cases he : (env.CreateClient i).err <;>
      cases hp : env.MeshNameErr i <;>
      simp [hf, hc, he, hp, Registry.get_set, Registry.get_delete]
  | some c' =>
    cases c' <;> cases hp : env.MeshNameErr i <;>
      simp [hf, hp, Registry.get_set, Registry.get_delete]

theorem reconcileAdapter_reads (env : TickEnv) (i : Nat) (ma : Adapter) (s : IterState) :
    Action.mapRead ma.Location ∈ (reconcileAdapter env i ma s).trace := by
  unfold reconcileAdapter
  cases hf : s.localMeshAdapters.get ma.Location with
  | none =>
    cases hc : (env.CreateClient i).client <;> cases he : (env.CreateClient i).err <;>
      cases hp : env.MeshNameErr i <;>
      simp [hf, hc, he, hp]
  | some c' =>
    cases c' <;> cases hp : env.MeshNameErr i <;>
      simp [hf, hp]

theorem reconcileFrom_reads (env : TickEnv) (ma : Adapter) (rest : List Adapter) :
    ∀ (i : Nat) (s : IterState), ma ∈ rest →
      Action.mapRead ma.Location ∈ (reconcileFrom env i rest s).trace := by
  induction rest with
  | nil => intro i s h; simp at h
  | cons a tl ih =>
    intro i s h
    simp only [reconcileFrom]
    rcases List.mem_cons.mp h with h | h
    · subst h
      exact reconcileFrom_trace_mem env tl (i + 1) _ _ (reconcileAdapter_reads env i ma s)
    · exact ih (i + 1) _ h

theorem reconcileFrom_registered_iff (env : TickEnv)
    (hcc : ∀ k, (env.CreateClient k).err = false → (env.CreateClient k).client = true)
    (rest : List Adapter) :
    ∀ (i : Nat) (s : IterState) (j : Nat) (ma : Adapter),
      (rest.map Adapter.Location).Nodup → s.localMeshAdapters.NoNil → rest[j]? = some ma →
      (((reconcileFrom env i rest s).localMeshAdapters.get ma.Location).isSome = true ↔
        (((s.localMeshAdapters.get ma.Location).isSome = true
            ∨ (env.CreateClient (i + j)).err = false)
          ∧ env.MeshNameErr (i + j) = false)) := by
  induction rest with
  | nil => intro i s j ma _ _ h; simp at h
  | cons a tl ih =>
    intro i s j ma hd hn hj
    simp only [List.map_cons, List.nodup_cons] at hd
    simp only [reconcileFrom]
    cases j with
    | zero =>
      simp only [List.getElem?_cons_zero, Option.some.injEq] at hj
      subst hj
      have hnot : ∀ b ∈ tl, b.Location ≠ a.Location := by
        intro b hb heq
        exact hd.1 (List.mem_map.mpr ⟨b, hb, heq⟩)
      rw [reconcileFrom_get_other env a.Location tl (i + 1) _ hnot]
      exact reconcileAdapter_self_registered env i a s (hcc i) (hn a.Location)
    | succ j =>
      simp only [List.getElem?_cons_succ] at hj
      have hmem : ma ∈ tl := List.getElem?_mem hj
      have hne : a.Location ≠ ma.Location := by
        intro heq
        exact hd.1 (List.mem_map.mpr ⟨ma, hmem, heq.symm⟩)
      have h := ih (i + 1) (reconcileAdapter env i a s) j ma hd.2
        (reconcileAdapter_noNil_of_created env i a s (hcc i) hn) hj
      rw [reconcileAdapter_get_other env i a s ma.Location hne] at h
      have hidx : i + 1 + j = i + (j + 1) := by omega
      rw [hidx] at h
      exact h

theorem tick_registered_iff (prefObj : Preference) (env : TickEnv) (st : LoopState)
    (hk : noValidK8SConfig prefObj = false)
    (hd : (configuredLocations prefObj).Nodup)
    (hnil : ∀ e ∈ st.localMeshAdapters, e.2 ≠ none)
    (hcc : ∀ k, (env.CreateClient k).err = false → (env.CreateClient k).client = true)
    (j : Nat) (ma : Adapter) (hj : (configuredAdapters prefObj)[j]? = some ma) :
    ma.Location ∈ (tick prefObj env st).1.localMeshAdapters.keys ↔
      ((ma.Location ∈ st.localMeshAdapters.keys ∨ (env.CreateClient j).err = false)
        ∧ env.MeshNameErr j = false) := by
  have hne : configuredAdapters prefObj ≠ [] := by
    intro h
    simp [h] at hj
  rw [tick_reconcile prefObj env st hk hne]
  simp only [Registry.mem_keys_iff]
  have h := reconcileFrom_registered_iff env hcc (configuredAdapters prefObj) 0
    { localMeshAdapters := st.localMeshAdapters, allocated := st.allocated,
      trace := [Action.lock] } j ma hd (Registry.noNil_of_forall _ hnil) hj
  simp only [Nat.zero_add] at h
  exact h

/-- C11: in a tick with a valid configuration whose adapter locations are
pairwise distinct (the registry holding no nil client, `CreateClient` returning
a client whenever it returns no error), every configured location is looked up,
whatever happened to the others; it is in the registry after the tick exactly
when it was there before or `CreateClient` succeeded for it, and its `MeshName`
probe succeeded; that does not depend on the answers given for the other
locations; and the `STOP` loop is not left by the tick. -/
theorem tick_reconciles_each_location_independently (prefObj : Preference) (env : TickEnv)
    (st : LoopState)
    (hk : noValidK8SConfig prefObj = false)
    (hd : (configuredLocations prefObj).Nodup)
    (hnil : ∀ e ∈ st.localMeshAdapters, e.2 ≠ none)
    (hcc : ∀ k, (env.CreateClient k).err = false → (env.CreateClient k).client = true) :
    (∀ (j : Nat) (ma : Adapter), (configuredAdapters prefObj)[j]? = some ma →
        Action.mapRead ma.Location ∈ (tick prefObj env st).2
          ∧ (ma.Location ∈ (tick prefObj env st).1.localMeshAdapters.keys ↔
              ((ma.Location ∈ st.localMeshAdapters.keys ∨ (env.CreateClient j).err = false)
                ∧ env.MeshNameErr j = false))
          ∧ (∀ env' : TickEnv,
              (∀ k, (env'.CreateClient k).err = false → (env'.CreateClient k).client = true) →
              env'.CreateClient j = env.CreateClient j → env'.MeshNameErr j = env.MeshNameErr j →
              (ma.Location ∈ (tick prefObj env' st).1.localMeshAdapters.keys ↔
                ma.Location ∈ (tick prefObj env st).1.localMeshAdapters.keys)))
      ∧ (∀ p : Pipeline, p.loop = st → p.panicked = false → p.stopped = false →
          (exec p (Step.iterate false prefObj env)).stopped = false
            ∧ (exec p (Step.iterate false prefObj env)).panicked = false
            ∧ (exec p (Step.iterate false prefObj env)).loop = (tick prefObj env st).1) := by
  constructor
  · intro j ma hj
    have hiff := tick_registered_iff prefObj env st hk hd hnil hcc j ma hj
    refine ⟨?_, hiff, ?_⟩
    · have hne : configuredAdapters prefObj ≠ [] := by
        intro h
        simp [h] at hj
      rw [tick_reconcile prefObj env st hk hne]
      exact List.mem_append_left _
        (reconcileFrom_reads env ma (configuredAdapters prefObj) 0 _ (List.getElem?_mem hj))
    · intro env' hcc' hcreate hprobe
      rw [hiff, tick_registered_iff prefObj env' st hk hd hnil hcc' j ma hj, hcreate, hprobe]
  · intro p hp hpan hstop
    subst hp
    simp [exec, iterate, hpan, hstop]

/-- C11, at a concrete tick: `CreateClient` fails for "a" and "b" is still
connected and registered. -/
theorem tick_reconciles_each_location_independently_witness :
    "a" ∉ (tick (inClusterPrefs ["a", "b"]) firstCreateFailingEnv
        { localMeshAdapters := [], allocated := 0 }).1.localMeshAdapters.keys
      ∧ Action.mapRead "b" ∈ (tick (inClusterPrefs ["a", "b"]) firstCreateFailingEnv
          { localMeshAdapters := [], allocated := 0 }).2
      ∧ ("b" ∈ (tick (inClusterPrefs ["a", "b"]) firstCreateFailingEnv
            { localMeshAdapters := [], allocated := 0 }).1.localMeshAdapters.keys ↔
          (("b" ∈ Registry.keys [] ∨ (firstCreateFailingEnv.CreateClient 1).err = false)
            ∧ firstCreateFailingEnv.MeshNameErr 1 = false)) :=
  ⟨by decide,
    ((tick_reconciles_each_location_independently (inClusterPrefs ["a", "b"])
      firstCreateFailingEnv { localMeshAdapters := [], allocated := 0 }
      (by decide) (by decide) (by decide)
      (by
        intro k
        by_cases h : k = 0 <;> simp [firstCreateFailingEnv, h])).1
      1 (Adapter.mk "b") (by decide)).1,
    ((tick_reconciles_each_location_independently (inClusterPrefs ["a", "b"])
      firstCreateFailingEnv { localMeshAdapters := [], allocated := 0 }
      (by decide) (by decide) (by decide)
      (by
        intro k
        by_cases h : k = 0 <;> simp [firstCreateFailingEnv, h])).1
      1 (Adapter.mk "b") (by decide)).2.1⟩

/-! ## C12: every registered client has been announced -/

theorem reconcileAdapter_registered_announced (env : TickEnv) (i : Nat) (ma : Adapter)
    (s : IterState) (L : String) (c : ClientId)
    (h : (reconcileAdapter env i ma s).localMeshAdapters.get L = some (some c)) :
    s.localMeshAdapters.get L = some (some c)
      ∨ Action.announce L c ∈ (reconcileAdapter env i ma s).trace := by
  by_cases hl : ma.Location = L
  · subst hl
    revert h
    unfold reconcileAdapter
    cases hf : s.localMeshAdapters.get ma.Location with
    | none =>
      cases hc : (env.CreateClient i).client <;> cases he : (env.CreateClient i).err <;>
        cases hp : env.MeshNameErr i <;>
        simp [hf, hc, he, hp, Registry.get_set, Registry.get_delete]
      intro h
      exact Or.inr h.symm
    | some c' =>
      cases c' <;> cases hp : env.MeshNameErr i <;>
        simp [hf, hp, Registry.get_set, Registry.get_delete]
      intro h
      exact Or.inl h
  · rw [reconcileAdapter_get_other env i ma s L hl] at h
    exact Or.inl h

theorem reconcileFrom_registered_announced (env : TickEnv) (L : String) (c : ClientId)
    (rest : List Adapter) :
    ∀ (i : Nat) (s : IterState),
      (reconcileFrom env i rest s).localMeshAdapters.get L = some (some c) →
      s.localMeshAdapters.get L = some (some c)
        ∨ Action.announce L c ∈ (reconcileFrom env i rest s).trace := by
  induction rest with
  | nil => intro i s h; exact Or.inl h
  | cons ma tl ih =>
    intro i s h
    simp only [reconcileFrom] at h ⊢
    rcases ih (i + 1) _ h with h1 | h1
    · rcases reconcileAdapter_registered_announced env i ma s L c h1 with h2 | h2
      · exact Or.inl h2
      · exact Or.inr (reconcileFrom_trace_mem env tl (i + 1) _ _ h2)
    · exact Or.inr h1

theorem tick_registered_announced (prefObj : Preference) (env : TickEnv) (st : LoopState)
    (L : String) (c : ClientId)
    (h : (tick prefObj env st).1.localMeshAdapters.get L = some (some c)) :
    st.localMeshAdapters.get L = some (some c) ∨ c ∈ announced (tick prefObj env st).2 := by
  by_cases hdrain : noValidK8SConfig prefObj = true ∨ configuredAdapters prefObj = []
  · rw [tick_drain prefObj env st hdrain] at h
    simp [drainRegistry, Registry.get] at h
  · have hk : noValidK8SConfig prefObj = false := by
      cases h : noValidK8SConfig prefObj
      · rfl
      · exact absurd (Or.inl h) hdrain
    have hne : configuredAdapters prefObj ≠ [] := fun h => hdrain (Or.inr h)
    rw [tick_reconcile prefObj env st hk hne] at h ⊢
    rcases reconcileFrom_registered_announced env L c (configuredAdapters prefObj) 0 _ h
      with h1 | h1
    · exact Or.inl h1
    · exact Or.inr ((mem_announced _ c).mpr ⟨L, List.mem_append_left _ h1⟩)

theorem exec_registered_announced (p : Pipeline) (step : Step)
    (h : ∀ L c, p.loop.localMeshAdapters.get L = some (some c) → c ∈ announcedOps p.log) :
    ∀ L c, (exec p step).loop.localMeshAdapters.get L = some (some c) →
      c ∈ announcedOps (exec p step).log := by
  intro L c
  cases step with
  | iterate notify prefObj env =>
    simp only [exec]
    by_cases hcond : (p.panicked || p.stopped) = true
    · rw [if_pos hcond]
      exact h L c
    · rw [if_neg hcond]
      cases notify with
      | true =>
        intro hreg
        have := h L c hreg
        simpa [iterate, announcedOps_append, announcedOps] using this
      | false =>
        simp only [iterate, Bool.false_eq_true, if_false, announcedOps_append,
          announcedOps_map_main, List.mem_append]
        intro hreg
        rcases tick_registered_announced prefObj env p.loop L c hreg with h1 | h1
        · exact Or.inl (h L c h1)
        · exact Or.inr h1
  | listener d m =>
    simp only [exec]
    by_cases hcond : (p.panicked || !(p.listeners.contains d)) = true
    · rw [if_pos hcond]
      exact h L c
    · rw [if_neg hcond]
      cases m with
      | push data =>
        cases hcl : p.respChanClosed <;>
          simpa [listenerMove, hcl, announcedOps_append, announcedOps] using h L c
      | finish =>
        simpa [listenerMove, announcedOps_append, announcedOps] using h L c

theorem run_registered_announced (steps : List Step) :
    ∀ p : Pipeline,
      (∀ L c, p.loop.localMeshAdapters.get L = some (some c) → c ∈ announcedOps p.log) →
      ∀ L c, (run p steps).loop.localMeshAdapters.get L = some (some c) →
        c ∈ announcedOps (run p steps).log := by
  induction steps with
  | nil => intro p h; exact h
  | cons step rest ih =>
    intro p h
    exact ih (exec p step) (exec_registered_announced p step h)

/-- In every execution from the initial state, whose registry is empty, whatever
the configurations and the answers of `CreateClient` and `MeshName`, a client
held in the registry has been sent on `newAdaptersChan` exactly once, and
exactly one listener goroutine has been started for it: it is running, or it
has ended and made its one `Close` call, on the client its loop variable then
held. -/
theorem registered_client_announced_exactly_once (shared : Bool) (steps : List Step)
    (L : String) (c : ClientId)
    (hreg : (run (Pipeline.init shared) steps).loop.localMeshAdapters.get L = some (some c)) :
    (announcedOps (run (Pipeline.init shared) steps).log).count c = 1
      ∧ ((listenerCloses (run (Pipeline.init shared) steps).log).map Prod.fst).count c
          + (run (Pipeline.init shared) steps).listeners.count c = 1 := by
  have hinv := run_consistent steps (Pipeline.init shared) (init_consistent shared)
  have hmem : c ∈ announcedOps (run (Pipeline.init shared) steps).log :=
    run_registered_announced steps (Pipeline.init shared)
      (by
        intro L' c' h
        simp [Pipeline.init, Registry.get] at h) L c hreg
  have hone := List.count_eq_one_of_mem hinv.nodup hmem
  have hown := hinv.owned c
  exact ⟨hone, by omega⟩

/-- Two ticks keep client 0 registered at "a"; it was announced once, by the
first. -/
theorem registered_client_announced_exactly_once_witness :
    (run (Pipeline.init false)
        [Step.iterate false (inClusterPrefs ["a"]) healthyEnv,
          Step.iterate false (inClusterPrefs ["a"]) healthyEnv]).loop.localMeshAdapters.get "a"
        = some (some 0)
      ∧ (announcedOps (run (Pipeline.init false)
          [Step.iterate false (inClusterPrefs ["a"]) healthyEnv,
            Step.iterate false (inClusterPrefs ["a"]) healthyEnv]).log).count 0 = 1 :=
  ⟨by decide,
    (registered_client_announced_exactly_once false
      [Step.iterate false (inClusterPrefs ["a"]) healthyEnv,
        Step.iterate false (inClusterPrefs ["a"]) healthyEnv] "a" 0 (by decide)).1⟩

/-- C12, at the failing execution: the goroutines sharing the loop variable of
line 60, a tick announces client 0 for "a" and client 1 for "b"; the listeners
started for them end and both close client 1; the next tick evicts "b", whose
probe fails. Client 0 is then in the registry, was announced exactly once, has
no listener left, and `Close` has never been called on it. -/
theorem registered_client_left_without_closer :
    (run (Pipeline.init true)
        [Step.iterate false (inClusterPrefs ["a", "b"]) healthyEnv,
          Step.listener 0 ListenerMove.finish,
          Step.listener 1 ListenerMove.finish,
          Step.iterate false (inClusterPrefs ["a", "b"]) secondProbeFailingEnv]
        ).loop.localMeshAdapters = [("a", some 0)]
      ∧ (announcedOps (run (Pipeline.init true)
          [Step.iterate false (inClusterPrefs ["a", "b"]) healthyEnv,
            Step.listener 0 ListenerMove.finish,
            Step.listener 1 ListenerMove.finish,
            Step.iterate false (inClusterPrefs ["a", "b"]) secondProbeFailingEnv]).log).count 0
          = 1
      ∧ (run (Pipeline.init true)
          [Step.iterate false (inClusterPrefs ["a", "b"]) healthyEnv,
            Step.listener 0 ListenerMove.finish,
            Step.listener 1 ListenerMove.finish,
            Step.iterate false (inClusterPrefs ["a", "b"]) secondProbeFailingEnv]).listeners = []
      ∧ listenerCloses (run (Pipeline.init true)
          [Step.iterate false (inClusterPrefs ["a", "b"]) healthyEnv,
            Step.listener 0 ListenerMove.finish,
            Step.listener 1 ListenerMove.finish,
            Step.iterate false (inClusterPrefs ["a", "b"]) secondProbeFailingEnv]).log
          = [(0, some 1), (1, some 1)]
      ∧ closeCalls 0 (run (Pipeline.init true)
          [Step.iterate false (inClusterPrefs ["a", "b"]) healthyEnv,
            Step.listener 0 ListenerMove.finish,
            Step.listener 1 ListenerMove.finish,
            Step.iterate false (inClusterPrefs ["a", "b"]) secondProbeFailingEnv]).log = 0
      ∧ closeCalls 1 (run (Pipeline.init true)
          [Step.iterate false (inClusterPrefs ["a", "b"]) healthyEnv,
            Step.listener 0 ListenerMove.finish,
            Step.listener 1 ListenerMove.finish,
            Step.iterate false (inClusterPrefs ["a", "b"]) secondProbeFailingEnv]).log = 3 := by
  decide

end EventsStreamer

/-! # Facts about the conversion of a stored result
-/

namespace Models

theorem Fields.lookup_filter_ne (fields : Fields) (key key' : String) (h : key ≠ key') :
    List.lookup key' (fields.filter (fun e => !(e.1 == key))) = List.lookup key' fields := by
  have hk : (key' == key) = false := by
    simp only [beq_eq_false_iff_ne, ne_eq]
    exact fun heq => h heq.symm
  induction fields with
  | nil => rfl
  | cons e rest ih =>
    obtain ⟨k, w⟩ := e
    by_cases hkk : k = key
    · subst hkk
      simp [List.filter_cons, List.lookup_cons, hk, ih]
    · have hne : (k == key) = false := by simpa using hkk
      simp only [List.filter_cons, hne, Bool.not_false, if_true, List.lookup_cons]
      cases (key' == k) <;> simp [ih]

theorem Fields.lookup_set_ne (fields : Fields) (key key' : String) (v : Value)
    (h : key ≠ key') : (Fields.set fields key v).lookup key' = fields.lookup key' := by
  have hk : (key' == key) = false := by
    simp only [beq_eq_false_iff_ne, ne_eq]
    exact fun heq => h heq.symm
  unfold Fields.set
  rw [List.lookup_cons, hk]
  exact Fields.lookup_filter_ne fields key key' h

theorem ConvertToSpec_panics_unless_http (env : ConvertEnv) (m : MesheryResult)
    (h : ∀ fields, m.Result = some fields →
      fields.lookup "RunType" ≠ some (Value.str "HTTP")) :
    ∃ p, m.ConvertToSpec env = Outcome.panic p := by
  unfold MesheryResult.ConvertToSpec
  cases hr : m.Result with
  | none => exact ⟨Panic.assignToNilMap, rfl⟩
  | some fields =>
    have hrun := h fields hr
    simp only
    rw [Fields.lookup_set_ne fields "RetCodes" "RunType" _ (by decide)]
    cases hl : fields.lookup "RunType" with
    | none => exact ⟨Panic.interfaceConversion, rfl⟩
    | some v =>
      cases v with
      | str runType =>
        have hne : runType ≠ "HTTP" := by
          intro heq
          rw [hl, heq] at hrun
          exact hrun rfl
        exact ⟨Panic.nilDereference, by simp [hne, fillSpec]⟩
      | int64 n => exact ⟨Panic.interfaceConversion, rfl⟩
      | object l => exact ⟨Panic.interfaceConversion, rfl⟩
      | retcodes l => exact ⟨Panic.interfaceConversion, rfl⟩
      | nodes n => exact ⟨Panic.interfaceConversion, rfl⟩
      | other => exact ⟨Panic.interfaceConversion, rfl⟩

/-- C13, at the failing inputs: `ConvertToSpec` panics, returning neither a spec
nor an error, on a result whose `Result` map is nil (line 108), whose "RunType"
entry is missing or is not a string (line 110), and whose "RunType" is a string
other than "HTTP" (line 132, `results` being nil); `GetResultHandler` then
panics too and sends neither the YAML document nor the 500 response. -/
theorem ConvertToSpec_panics_on_unexpected_result :
    MesheryResult.ConvertToSpec failingConvertEnv { ID := "x", Result := none }
        = Outcome.panic Panic.assignToNilMap
      ∧ MesheryResult.ConvertToSpec failingConvertEnv { ID := "x", Result := some [] }
          = Outcome.panic Panic.interfaceConversion
      ∧ MesheryResult.ConvertToSpec failingConvertEnv
          { ID := "x", Result := some [("RunType", Value.int64 1)] }
          = Outcome.panic Panic.interfaceConversion
      ∧ MesheryResult.ConvertToSpec decodingConvertEnv
          { ID := "x", Result := some [("RunType", Value.str "GRPC")] }
          = Outcome.panic Panic.nilDereference
      ∧ GetResultHandler
          (providerOf { ID := "x", Result := some [("RunType", Value.str "GRPC")] }
            decodingConvertEnv) "GET" "x"
          = HandlerResult.panicked Panic.nilDereference
      ∧ GetResultHandler (providerOf { ID := "x", Result := none } decodingConvertEnv) "GET" "x"
          = HandlerResult.panicked Panic.assignToNilMap := by
  decide

end Models
